import Mathlib

/-!
Verification of the nephele HTTP/2 core (`src/nephele/src/proto/h2`).

Shallow embedding conventions:
* Rust `i32` values are modelled as `Int` together with the explicit
  wrap-around function `wrap32`; `u32` values are modelled as `Nat`
  (bounded by `2^32` in hypotheses where it matters).
* Rust release-mode semantics are modelled: `debug_assert!` is a no-op,
  ordinary `assert!`/`panic!`/`unimplemented!` are modelled by `Option`
  or a dedicated outcome constructor.
* Byte buffers are `List Nat` with every element `< 256`.
-/

namespace Nephele


/-- `2^31`, the i32 sign bound. -/
def twoPow31 : Int := 2147483648

/-- `2^32`. -/
def twoPow32 : Int := 4294967296

/-- Wrap an unbounded integer into i32 two's-complement range
`[-2^31, 2^31)`, Rust release-mode overflow semantics. -/
def wrap32 (x : Int) : Int := (x + twoPow31) % twoPow32 - twoPow31

/-- `x` is representable as an i32. -/
def isI32 (x : Int) : Prop := -twoPow31 ≤ x ∧ x < twoPow31

instance (x : Int) : Decidable (isI32 x) := by
  unfold isI32; infer_instance

/-- Rust `u32 as i32` cast (the argument is a `u32` value, i.e. `< 2^32`). -/
def u32ToI32 (n : Nat) : Int := wrap32 n

/-- Rust `i32 as u32` cast (the argument is assumed in i32 range). -/
def i32ToU32 (x : Int) : Nat := (x % twoPow32).toNat

/-- Rust truncating (toward zero) i32 division, for `i32 / i32`. -/
def tdiv32 (a b : Int) : Int := Int.tdiv a b

/-! ## Flow control (`proto/streams/flow_control.rs`)

`Window` is a newtype around `i32`; we carry the raw `Int`.
`WindowSize` is `u32`, modelled as `Nat`. -/

/-- `const UNCLAIMED_NUMERATOR: i32 = 1` -/
def UNCLAIMED_NUMERATOR : Int := 1

/-- `const UNCLAIMED_DENOMINATOR: i32 = 2` -/
def UNCLAIMED_DENOMINATOR : Int := 2

/-- `pub const MAX_WINDOW_SIZE: WindowSize = (1 << 31) - 1` (proto/mod.rs). -/
def MAX_WINDOW_SIZE : Nat := 2147483647

/-- HTTP/2 error codes (`frame::Reason`).  `frame/reason.rs` is not under
src/; the codes named by the spec are modelled as constructors. -/
inductive Reason where
  | noError
  | protocolError
  | flowControlError
  | streamClosed
  | frameSizeError
  | refusedStream
  | cancel
  | internalError
  deriving DecidableEq, Repr

/-- `Window::as_size`: clamp a (possibly negative) signed window to `u32`. -/
def Window.asSize (w : Int) : Nat := if w < 0 then 0 else w.toNat

/-- `PartialEq<WindowSize> for Window`: a negative window never equals a
`u32` size. -/
def Window.eqSize (w : Int) (sz : Nat) : Bool :=
  if w < 0 then false else decide (w.toNat = sz)

/-- `PartialOrd<WindowSize> for Window` specialised to `sz <= window`
(used by `assert!(sz <= self.window_size)` in `send_data`). -/
def Window.sizeLe (sz : Nat) (w : Int) : Bool :=
  if w < 0 then false else decide (sz ≤ w.toNat)

/-- `struct FlowControl { window_size: Window, available: Window }` -/
structure FlowControl where
  window_size : Int
  available : Int
  deriving DecidableEq, Repr

/-- `FlowControl::new` -/
def FlowControl.new : FlowControl := ⟨0, 0⟩

/-- `FlowControl::window_size(&self) -> WindowSize` (public accessor,
clamps through `Window::as_size`). -/
def FlowControl.windowSizePub (fc : FlowControl) : Nat :=
  Window.asSize fc.window_size

/-- `FlowControl::has_unavailable` -/
def FlowControl.hasUnavailable (fc : FlowControl) : Bool :=
  if fc.window_size < 0 then false
  else decide (fc.available < fc.window_size)

/-- `FlowControl::claim_capacity`: `self.available -= capacity`
(`SubAssign<WindowSize> for Window`, wrapping in release mode). -/
def FlowControl.claimCapacity (fc : FlowControl) (capacity : Nat) : FlowControl :=
  { fc with available := wrap32 (fc.available - u32ToI32 capacity) }

/-- `FlowControl::assign_capacity`: `self.available += capacity`. -/
def FlowControl.assignCapacity (fc : FlowControl) (capacity : Nat) : FlowControl :=
  { fc with available := wrap32 (fc.available + u32ToI32 capacity) }

/-- `FlowControl::unclaimed_capacity` -/
def FlowControl.unclaimedCapacity (fc : FlowControl) : Option Nat :=
  if fc.window_size ≥ fc.available then none
  else
    let unclaimed := wrap32 (fc.available - fc.window_size)
    let threshold := tdiv32 fc.window_size UNCLAIMED_DENOMINATOR * UNCLAIMED_NUMERATOR
    if unclaimed < threshold then none
    else some (i32ToU32 unclaimed)

/-- `FlowControl::inc_window`: `overflowing_add` of the `sz as i32` cast,
then the `val > MAX_WINDOW_SIZE as i32` check. -/
def FlowControl.incWindow (fc : FlowControl) (sz : Nat) :
    Except Reason FlowControl :=
  let exact := fc.window_size + u32ToI32 sz
  let val := wrap32 exact
  if exact ≠ val then Except.error Reason.flowControlError
  else if val > (MAX_WINDOW_SIZE : Int) then Except.error Reason.flowControlError
  else Except.ok { fc with window_size := val }

/-- `FlowControl::dec_send_window`: `self.window_size -= sz`. -/
def FlowControl.decSendWindow (fc : FlowControl) (sz : Nat) : FlowControl :=
  { fc with window_size := wrap32 (fc.window_size - u32ToI32 sz) }

/-- `FlowControl::dec_recv_window`: decrements both fields. -/
def FlowControl.decRecvWindow (fc : FlowControl) (sz : Nat) : FlowControl :=
  { fc with
    window_size := wrap32 (fc.window_size - u32ToI32 sz)
    available := wrap32 (fc.available - u32ToI32 sz) }

/-- `FlowControl::send_data`: asserts `sz <= self.window_size` (modelled
as `none` on assertion failure), then decrements both fields. -/
def FlowControl.sendData (fc : FlowControl) (sz : Nat) : Option FlowControl :=
  if Window.sizeLe sz fc.window_size then
    some { fc with
      window_size := wrap32 (fc.window_size - u32ToI32 sz)
      available := wrap32 (fc.available - u32ToI32 sz) }
  else none

/-! ## Stream state machine (`proto/streams/state.rs`)

The `Inner` enum and its transition methods, translated one branch at a
time.  Methods that return `Err(..)` in Rust do so before any assignment,
so on the error constructors the state is unchanged by construction.
`send_close` panics on an unexpected state; the panic is a distinct
outcome constructor. -/

/-- `enum Peer { AwaitingHeaders, Streaming }` (state.rs). -/
inductive PeerSt where
  | awaitingHeaders
  | streaming
  deriving DecidableEq, Repr

/-- `proto::Error` as stored by `recv_err` (`Proto(reason)` or `Io`). -/
inductive ProtoError where
  | proto (reason : Reason)
  | ioError
  deriving DecidableEq, Repr

/-- `enum Cause` (state.rs). -/
inductive Cause where
  | endStream
  | proto (reason : Reason)
  | locallyReset (reason : Reason)
  | ioError
  | scheduled (reason : Reason)
  deriving DecidableEq, Repr

/-- `enum Inner` (state.rs); `opened` models `Open { local, remote }`
(`open` is a Lean keyword). -/
inductive StState where
  | idle
  | reservedLocal
  | reservedRemote
  | opened (loc : PeerSt) (rem : PeerSt)
  | halfClosedLocal (p : PeerSt)
  | halfClosedRemote (p : PeerSt)
  | closed (cause : Cause)
  deriving DecidableEq, Repr

/-- `UserError` variants used by the state machine and send paths
(codec/error.rs). -/
inductive UserError where
  | unexpectedFrameType
  | headerTooBig
  | malformedHeaders
  | payloadTooBig
  | inactiveStreamId
  | peerDisabledServerPush
  deriving DecidableEq, Repr

/-- `RecvError` (codec/error.rs): connection-scoped, stream-scoped or I/O. -/
inductive RecvError where
  | connection (reason : Reason)
  | stream (id : Nat) (reason : Reason)
  | ioError
  deriving DecidableEq, Repr

/-- `State::send_open` -/
def StState.sendOpen (s : StState) (eos : Bool) : Except UserError StState :=
  match s with
  | .idle =>
      .ok (if eos then .halfClosedLocal .awaitingHeaders
           else .opened .streaming .awaitingHeaders)
  | .opened .awaitingHeaders remote =>
      .ok (if eos then .halfClosedLocal remote
           else .opened .streaming remote)
  | .halfClosedRemote .awaitingHeaders =>
      .ok (if eos then .closed .endStream else .halfClosedRemote .streaming)
  | .reservedLocal =>
      .ok (if eos then .closed .endStream else .halfClosedRemote .streaming)
  | _ => .error .unexpectedFrameType

/-- `State::recv_open`; the `Bool` is `initial`. -/
def StState.recvOpen (s : StState) (eos : Bool) :
    Except RecvError (StState × Bool) :=
  match s with
  | .idle =>
      .ok ((if eos then .halfClosedRemote .awaitingHeaders
            else .opened .awaitingHeaders .streaming), true)
  | .reservedRemote =>
      .ok ((if eos then .closed .endStream else .halfClosedLocal .streaming), true)
  | .opened l .awaitingHeaders =>
      .ok ((if eos then .halfClosedRemote l else .opened l .streaming), false)
  | .halfClosedLocal .awaitingHeaders =>
      .ok ((if eos then .closed .endStream else .halfClosedLocal .streaming), false)
  | _ => .error (.connection .protocolError)

/-- `State::reserve_remote` -/
def StState.reserveRemote (s : StState) : Except RecvError StState :=
  match s with
  | .idle => .ok .reservedRemote
  | _ => .error (.connection .protocolError)

/-- `State::reserve_local` -/
def StState.reserveLocal (s : StState) : Except UserError StState :=
  match s with
  | .idle => .ok .reservedLocal
  | _ => .error .unexpectedFrameType

/-- `State::recv_close` -/
def StState.recvClose (s : StState) : Except RecvError StState :=
  match s with
  | .opened l _ => .ok (.halfClosedRemote l)
  | .halfClosedLocal _ => .ok (.closed .endStream)
  | _ => .error (.connection .protocolError)

/-- `State::recv_reset` -/
def StState.recvReset (s : StState) (reason : Reason) (queued : Bool) : StState :=
  match s, queued with
  | .closed c, false => .closed c
  | _, _ => .closed (.proto reason)

/-- `State::recv_err` -/
def StState.recvErr (s : StState) (err : ProtoError) : StState :=
  match s with
  | .closed c => .closed c
  | _ =>
      .closed (match err with
               | .proto reason => .locallyReset reason
               | .ioError => .ioError)

/-- `State::recv_eof` -/
def StState.recvEof (s : StState) : StState :=
  match s with
  | .closed c => .closed c
  | _ => .closed .ioError

/-- `State::send_close`; `none` models the `panic!` arm. -/
def StState.sendClose (s : StState) : Option StState :=
  match s with
  | .opened _ remote => some (.halfClosedLocal remote)
  | .halfClosedRemote _ => some (.closed .endStream)
  | _ => none

/-- `State::set_reset` (unconditional). -/
def StState.setReset (_s : StState) (reason : Reason) : StState :=
  .closed (.locallyReset reason)

/-- `State::set_scheduled_reset`.  The `debug_assert!(!self.is_closed())`
is a release-mode no-op; the assignment is unconditional. -/
def StState.setScheduledReset (_s : StState) (reason : Reason) : StState :=
  .closed (.scheduled reason)

/-- `State::get_scheduled_reset` -/
def StState.getScheduledReset (s : StState) : Option Reason :=
  match s with
  | .closed (.scheduled reason) => some reason
  | _ => none

/-- `State::is_scheduled_reset` -/
def StState.isScheduledReset (s : StState) : Bool :=
  match s with
  | .closed (.scheduled _) => true
  | _ => false

/-- `State::is_local_reset` -/
def StState.isLocalReset (s : StState) : Bool :=
  match s with
  | .closed (.locallyReset _) => true
  | .closed (.scheduled _) => true
  | _ => false

/-- `State::is_reset` -/
def StState.isReset (s : StState) : Bool :=
  match s with
  | .closed .endStream => false
  | .closed _ => true
  | _ => false

/-- `State::is_send_streaming` -/
def StState.isSendStreaming (s : StState) : Bool :=
  match s with
  | .opened .streaming _ => true
  | .halfClosedRemote .streaming => true
  | _ => false

/-- `State::is_recv_headers` -/
def StState.isRecvHeaders (s : StState) : Bool :=
  match s with
  | .idle => true
  | .opened _ .awaitingHeaders => true
  | .halfClosedLocal .awaitingHeaders => true
  | .reservedRemote => true
  | _ => false

/-- `State::is_recv_streaming` -/
def StState.isRecvStreaming (s : StState) : Bool :=
  match s with
  | .opened _ .streaming => true
  | .halfClosedLocal .streaming => true
  | _ => false

/-- `State::is_closed` -/
def StState.isClosed (s : StState) : Bool :=
  match s with
  | .closed _ => true
  | _ => false

/-- `State::is_recv_closed` -/
def StState.isRecvClosed (s : StState) : Bool :=
  match s with
  | .closed _ | .halfClosedRemote _ | .reservedLocal => true
  | _ => false

/-- `State::is_send_closed` -/
def StState.isSendClosed (s : StState) : Bool :=
  match s with
  | .closed _ | .halfClosedLocal _ | .reservedRemote => true
  | _ => false

/-- `State::is_idle` -/
def StState.isIdle (s : StState) : Bool :=
  match s with
  | .idle => true
  | _ => false

/-- `State::ensure_recv_open` -/
def StState.ensureRecvOpen (s : StState) : Except ProtoError Bool :=
  match s with
  | .closed (.proto reason) => .error (.proto reason)
  | .closed (.locallyReset reason) => .error (.proto reason)
  | .closed (.scheduled reason) => .error (.proto reason)
  | .closed .ioError => .error .ioError
  | .closed .endStream | .halfClosedRemote _ | .reservedLocal => .ok false
  | _ => .ok true

/-! ### The event alphabet for claim C1

One constructor per state-machine operation named by the claim. -/

/-- A single state-machine operation. -/
inductive StEvent where
  | sendOpen (eos : Bool)
  | recvOpen (eos : Bool)
  | reserveLocal
  | reserveRemote
  | recvClose
  | sendClose
  | recvReset (reason : Reason) (queued : Bool)
  | recvErr (err : ProtoError)
  | recvEof
  | setReset (reason : Reason)
  | setScheduledReset (reason : Reason)
  deriving DecidableEq, Repr

/-- Outcome of one operation: a successful transition, a typed failure
(state unchanged, exactly like the Rust early `return Err`), or a panic
(`send_close` on an unexpected state). -/
inductive StOutcome where
  | next (s : StState)
  | userErr (e : UserError)
  | recvErr (e : RecvError)
  | panicked
  deriving DecidableEq, Repr

/-- Apply one operation to a state. -/
def StState.step (s : StState) (e : StEvent) : StOutcome :=
  match e with
  | .sendOpen eos =>
      match s.sendOpen eos with
      | .ok s' => .next s'
      | .error e => .userErr e
  | .recvOpen eos =>
      match s.recvOpen eos with
      | .ok (s', _) => .next s'
      | .error e => .recvErr e
  | .reserveLocal =>
      match s.reserveLocal with
      | .ok s' => .next s'
      | .error e => .userErr e
  | .reserveRemote =>
      match s.reserveRemote with
      | .ok s' => .next s'
      | .error e => .recvErr e
  | .recvClose =>
      match s.recvClose with
      | .ok s' => .next s'
      | .error e => .recvErr e
  | .sendClose =>
      match s.sendClose with
      | some s' => .next s'
      | none => .panicked
  | .recvReset reason queued => .next (s.recvReset reason queued)
  | .recvErr err => .next (s.recvErr err)
  | .recvEof => .next s.recvEof
  | .setReset reason => .next (s.setReset reason)
  | .setScheduledReset reason => .next (s.setScheduledReset reason)

/-- The state after an operation: on a failure or panic the stored state
is what it was before (the Rust methods return without assigning). -/
def StState.after (s : StState) (e : StEvent) : StState :=
  match s.step e with
  | .next s' => s'
  | _ => s

/-- Run a sequence of operations. -/
def StState.run (s : StState) : List StEvent → StState
  | [] => s
  | e :: es => (s.after e).run es

/-! ## Helper lemmas -/

/-! ## Claim C3: `FlowControl::inc_window` -/

instance {ε α : Type} [DecidableEq ε] [DecidableEq α] :
    DecidableEq (Except ε α) := fun x y =>
  match x, y with
  | .ok a, .ok b =>
      if h : a = b then .isTrue (by rw [h])
      else .isFalse (by intro he; injection he; contradiction)
  | .error a, .error b =>
      if h : a = b then .isTrue (by rw [h])
      else .isFalse (by intro he; injection he; contradiction)
  | .ok _, .error _ => .isFalse (by intro he; injection he)
  | .error _, .ok _ => .isFalse (by intro he; injection he)

/-- Claim C3 at one input, as stated: `inc_window(sz)` fails with
`FLOW_CONTROL_ERROR` exactly when the mathematical sum
`window_size + sz` overflows i32 / exceeds `MAX_WINDOW_SIZE = 2^31-1`
(for a non-negative increment the two conditions coincide); on failure
nothing changes (the Rust method returns before assigning, so the caller
keeps `fc` as is); on success `window_size` grows by exactly `sz` and
`available` is unchanged. -/
def incWindowClaimAt (fc : FlowControl) (sz : Nat) : Prop :=
  if fc.window_size + sz > (MAX_WINDOW_SIZE : Int) then
    fc.incWindow sz = Except.error Reason.flowControlError
  else
    fc.incWindow sz = Except.ok ⟨fc.window_size + sz, fc.available⟩

instance (fc : FlowControl) (sz : Nat) : Decidable (incWindowClaimAt fc sz) := by
  unfold incWindowClaimAt; infer_instance

/-! ## Claim C8: `FlowControl::unclaimed_capacity` -/

/-- Claim C8 at one input, as stated: `Some(n)` is returned with `n` the
amount by which `available` exceeds `window_size`, and only when that
amount strictly exceeds half of the current window size; in every other
case (in particular whenever `available ≤ window_size`) the result is
`None`. -/
def unclaimedClaimAt (fc : FlowControl) : Prop :=
  (∀ n, fc.unclaimedCapacity = some n →
    (n : Int) = fc.available - fc.window_size ∧
    fc.window_size < fc.available ∧
    (n : Int) > tdiv32 fc.window_size 2) ∧
  (¬ (fc.window_size < fc.available ∧
      fc.available - fc.window_size > tdiv32 fc.window_size 2) →
    fc.unclaimedCapacity = none)

/-! ## Claim C9: `FlowControl::window_size` never reports a negative
window -/

/-! ## Frame data types used by the stream layer

`frame/headers.rs` is under src/ and is followed for `Headers`/`Pseudo`;
byte strings are `List Nat`.  `http::Method`, `HeaderName`, `HeaderValue`
are external collaborators (spec §1) and appear as raw byte strings. -/

/-- Turn a literal into its byte list. -/
def str2b (s : String) : List Nat := s.data.map (fun c => c.toNat)

/-- One entry of an `http::HeaderMap`, in insertion order. -/
structure HField where
  name : List Nat
  value : List Nat
  deriving DecidableEq, Repr

/-- `frame::Pseudo` (headers.rs). -/
structure PseudoM where
  method : Option (List Nat)
  scheme : Option (List Nat)
  authority : Option (List Nat)
  path : Option (List Nat)
  status : Option Nat
  deriving DecidableEq, Repr

/-- `Pseudo::default()` -/
def PseudoM.default : PseudoM := ⟨none, none, none, none, none⟩

/-- `Pseudo::response(status)` -/
def PseudoM.response (status : Nat) : PseudoM := ⟨none, none, none, none, some status⟩

/-- `frame::StreamDependency`.  `frame/priority.rs` is not under src/;
modelled from the spec: a 4-byte dependency id whose high bit is the
exclusive flag, followed by a weight byte. -/
structure StreamDep where
  dependencyId : Nat
  weight : Nat
  isExclusive : Bool
  deriving DecidableEq, Repr

/-- `HeaderBlock` (headers.rs). -/
structure HeaderBlockM where
  fields : List HField
  isOverSize : Bool
  pseudo : PseudoM
  deriving DecidableEq, Repr

/-- Headers frame flag bits (headers.rs). -/
def H_END_STREAM : Nat := 0x1

def H_END_HEADERS : Nat := 0x4

def H_PADDED : Nat := 0x8

def H_PRIORITY : Nat := 0x20

/-- `frame::Headers` (headers.rs); `flags` is the raw `HeadersFlag` byte. -/
structure MHeaders where
  streamId : Nat
  streamDep : Option StreamDep
  headerBlock : HeaderBlockM
  flags : Nat
  deriving DecidableEq, Repr

/-- `Headers::new` (flags default to `END_HEADERS`). -/
def MHeaders.new (streamId : Nat) (pseudo : PseudoM) (fields : List HField) : MHeaders :=
  ⟨streamId, none, ⟨fields, false, pseudo⟩, H_END_HEADERS⟩

/-- `Headers::set_end_stream` -/
def MHeaders.setEndStream (h : MHeaders) : MHeaders :=
  { h with flags := h.flags ||| H_END_STREAM }

/-- `HeadersFlag::is_end_stream` -/
def MHeaders.isEndStream (h : MHeaders) : Bool := h.flags &&& H_END_STREAM ≠ 0

/-- `HeadersFlag::is_end_headers` -/
def MHeaders.isEndHeaders (h : MHeaders) : Bool := h.flags &&& H_END_HEADERS ≠ 0

/-- `Headers::is_over_size` -/
def MHeaders.isOverSize (h : MHeaders) : Bool := h.headerBlock.isOverSize

/-- `Headers::fields` -/
def MHeaders.fields (h : MHeaders) : List HField := h.headerBlock.fields

/-! ## Stream store, counts and prioritizer
(`proto/streams/{stream,counts,prioritize,send}.rs`)

`store.rs` and `buffer.rs` are not under src/.  Modelled from the spec
(§3, §4.5, §9): the arena is an association list keyed by stream id, each
intrusive queue is an explicit key list paired with the per-stream
`is_queued` flag that guards double insertion, and the per-stream frame
deque is a plain list.  Wakers (`send_task`/`recv_task`) are dropped:
waking has no effect on any state modelled here. -/

/-- u32 wrapping subtraction (release-mode `a - b`). -/
def u32sub (a b : Nat) : Nat := (a % 4294967296 + 4294967296 - b % 4294967296) % 4294967296

/-- u32 wrapping addition (release-mode `a + b`). -/
def u32add (a b : Nat) : Nat := (a + b) % 4294967296

/-- `Window < WindowSize` (`PartialOrd<WindowSize> for Window`). -/
def Window.sizeLt (w : Int) (sz : Nat) : Bool :=
  if w < 0 then true else decide (w.toNat < sz)

/-- `WindowSize < Window` (`PartialOrd<Window> for WindowSize`),
specialised to `0 < window` for the `available() > 0` tests. -/
def Window.posLt (w : Int) : Bool := decide (0 < w)

/-- `enum ContentLength` (stream.rs). -/
inductive ContentLengthM where
  | omitted
  | headCL
  | remaining (n : Nat)
  deriving DecidableEq, Repr

/-- `ContentLength::is_head` -/
def ContentLengthM.isHead : ContentLengthM → Bool
  | .headCL => true
  | _ => false

/-- A recv-side event on `pending_recv` (recv.rs `Event`); the payload
carried by each event is irrelevant to the claims modelled here. -/
inductive REvent where
  | headersEvent
  | dataEvent
  | trailersEvent
  deriving DecidableEq, Repr

/-- A frame on a stream's own send deque (`Buffer<Frame<B>>`).  DATA
carries its payload size (`payload().remaining()`) and END_STREAM flag;
the payload bytes themselves never influence scheduling. -/
inductive SFrame where
  | dataF (sz : Nat) (eos : Bool)
  | headersF (h : MHeaders)
  | pushPromiseF (promisedId : Nat)
  | resetF (reason : Reason)
  deriving DecidableEq, Repr

/-- `struct Stream` (stream.rs), minus wakers and minus the five
`next_*` intrusive pointers (replaced by the explicit queue lists). -/
structure MStream where
  id : Nat
  state : StState
  isCounted : Bool
  refCount : Nat
  isPendingSend : Bool
  sendFlow : FlowControl
  requestedSendCapacity : Nat
  bufferedSendData : Nat
  pendingSend : List SFrame
  isPendingSendCapacity : Bool
  sendCapacityInc : Bool
  isPendingOpen : Bool
  isPendingPush : Bool
  isPendingAccept : Bool
  recvFlow : FlowControl
  inFlightRecvData : Nat
  isPendingWindowUpdate : Bool
  resetAt : Bool
  pendingRecv : List REvent
  contentLength : ContentLengthM
  deriving DecidableEq, Repr

/-- `Stream::is_pending_reset_expiration` (`reset_at.is_some()`). -/
def MStream.isPendingResetExpiration (s : MStream) : Bool := s.resetAt

/-- `Stream::is_send_ready` -/
def MStream.isSendReady (s : MStream) : Bool := !s.isPendingOpen && !s.isPendingPush

/-- `Stream::is_closed` (stream-level: state closed, deque flushed,
nothing buffered). -/
def MStream.isClosedS (s : MStream) : Bool :=
  s.state.isClosed && s.pendingSend.isEmpty && s.bufferedSendData == 0

/-- `Stream::is_released` -/
def MStream.isReleased (s : MStream) : Bool :=
  s.isClosedS && s.refCount == 0 && !s.isPendingSend &&
  !s.isPendingSendCapacity && !s.isPendingAccept &&
  !s.isPendingWindowUpdate && !s.isPendingOpen && !s.resetAt

/-- `Stream::assign_capacity` (stream.rs; the waker notification is a
no-op here). -/
def MStream.assignCapacityS (s : MStream) (capacity : Nat) : MStream :=
  { s with
    sendCapacityInc := true
    sendFlow := s.sendFlow.assignCapacity capacity }

/-- The stream arena, keyed by stream id (`store::Key` and the id map
collapse onto the id). -/
abbrev MStore := List (Nat × MStream)

def storeFind (store : MStore) (k : Nat) : Option MStream :=
  match store with
  | [] => none
  | (k', s) :: rest => if k' = k then some s else storeFind rest k

def storeUpdate (store : MStore) (k : Nat) (s : MStream) : MStore :=
  match store with
  | [] => []
  | (k', s') :: rest =>
      if k' = k then (k', s) :: rest else (k', s') :: storeUpdate rest k s

def storeRemove (store : MStore) (k : Nat) : MStore :=
  match store with
  | [] => []
  | (k', s') :: rest =>
      if k' = k then rest else (k', s') :: storeRemove rest k

/-- `struct Counts` (counts.rs); `peer::Dyn` collapses to `isServer`. -/
structure MCounts where
  isServer : Bool
  maxSend : Nat
  numSend : Nat
  maxRecv : Nat
  numRecv : Nat
  maxReset : Nat
  numReset : Nat
  deriving DecidableEq, Repr

/-- `Dyn::is_local_init`: server-initiated stream ids are even
(stream_id.rs is not under src/; parity per spec §3). -/
def MCounts.isLocalInit (c : MCounts) (id : Nat) : Bool :=
  c.isServer == (id % 2 == 0)

def MCounts.canIncNumRecvStreams (c : MCounts) : Bool := c.maxRecv > c.numRecv

def MCounts.canIncNumSendStreams (c : MCounts) : Bool := c.maxSend > c.numSend

def MCounts.canIncNumResetStreams (c : MCounts) : Bool := c.maxReset > c.numReset

/-- `Counts::inc_num_recv_streams`; `none` models the `assert!`s. -/
def MCounts.incNumRecvStreams (c : MCounts) (s : MStream) :
    Option (MCounts × MStream) :=
  if c.canIncNumRecvStreams && !s.isCounted then
    some ({ c with numRecv := c.numRecv + 1 }, { s with isCounted := true })
  else none

/-- `Counts::inc_num_send_streams` -/
def MCounts.incNumSendStreams (c : MCounts) (s : MStream) :
    Option (MCounts × MStream) :=
  if c.canIncNumSendStreams && !s.isCounted then
    some ({ c with numSend := c.numSend + 1 }, { s with isCounted := true })
  else none

/-- `Counts::inc_num_reset_streams` -/
def MCounts.incNumResetStreams (c : MCounts) : Option MCounts :=
  if c.canIncNumResetStreams then some { c with numReset := c.numReset + 1 }
  else none

/-- `Counts::dec_num_streams` -/
def MCounts.decNumStreams (c : MCounts) (s : MStream) :
    Option (MCounts × MStream) :=
  if !s.isCounted then none
  else if c.isLocalInit s.id then
    if c.numSend > 0 then
      some ({ c with numSend := c.numSend - 1 }, { s with isCounted := false })
    else none
  else
    if c.numRecv > 0 then
      some ({ c with numRecv := c.numRecv - 1 }, { s with isCounted := false })
    else none

/-- `Counts::dec_num_reset_streams` -/
def MCounts.decNumResetStreams (c : MCounts) : Option MCounts :=
  if c.numReset > 0 then some { c with numReset := c.numReset - 1 } else none

/-- `store::Ptr::unlink`.  Modelled from the spec: store.rs is not under
src/; `unlink` detaches the stream from the pending-reset-expiration
list, here represented by clearing the `reset_at` membership flag. -/
def MStream.unlink (s : MStream) : MStream := { s with resetAt := false }

/-- `Counts::transition_after` (counts.rs).  The final
update-or-remove writes the mutated stream back into the arena
(`store::Ptr` mutations are in place; `remove` reclaims the slot). -/
def transitionAfter (c : MCounts) (store : MStore) (s : MStream)
    (isResetCounted : Bool) : Option (MCounts × MStore) := do
  let (c, s) ←
    if s.isClosedS then do
      let (c, s) ←
        if !s.isPendingResetExpiration then do
          let s := s.unlink
          let c ← if isResetCounted then c.decNumResetStreams else some c
          some (c, s)
        else some (c, s)
      if s.isCounted then c.decNumStreams s else some (c, s)
    else some (c, s)
  if s.isReleased then
    some (c, storeRemove store s.id)
  else
    some (c, storeUpdate store s.id s)

/-! ## Prioritize (`proto/streams/prioritize.rs`) and Send (`send.rs`) -/

/-- `enum InFlightData` (prioritize.rs). -/
inductive InFlightData where
  | nothing
  | dataFrame (k : Nat)
  | dropIt
  deriving DecidableEq, Repr

/-- `struct Prioritize`: the three queues it owns, the connection-level
send flow window, and the in-flight data frame marker. -/
structure MPrioritize where
  pendingSend : List Nat
  pendingCapacity : List Nat
  pendingOpen : List Nat
  flow : FlowControl
  lastOpenedId : Nat
  inFlight : InFlightData
  deriving DecidableEq, Repr

/-- `store::Queue::<NextSend>::push`: refuse double insertion via the
`is_pending_send` flag, else append at the tail. -/
def pushSendQ (p : MPrioritize) (s : MStream) : MPrioritize × MStream :=
  if s.isPendingSend then (p, s)
  else ({ p with pendingSend := p.pendingSend ++ [s.id] },
        { s with isPendingSend := true })

/-- `store::Queue::<NextSendCapacity>::push` -/
def pushCapacityQ (p : MPrioritize) (s : MStream) : MPrioritize × MStream :=
  if s.isPendingSendCapacity then (p, s)
  else ({ p with pendingCapacity := p.pendingCapacity ++ [s.id] },
        { s with isPendingSendCapacity := true })

/-- `store::Queue::<NextOpen>::push` (`Prioritize::queue_open`). -/
def pushOpenQ (p : MPrioritize) (s : MStream) : MPrioritize × MStream :=
  if s.isPendingOpen then (p, s)
  else ({ p with pendingOpen := p.pendingOpen ++ [s.id] },
        { s with isPendingOpen := true })

/-- `Prioritize::schedule_send` (the waker is a no-op here). -/
def scheduleSend (p : MPrioritize) (s : MStream) : MPrioritize × MStream :=
  if s.isSendReady then pushSendQ p s else (p, s)

/-- `Prioritize::queue_frame`: push onto the stream's own deque, then
schedule the stream. -/
def queueFrame (p : MPrioritize) (s : MStream) (frame : SFrame) :
    MPrioritize × MStream :=
  scheduleSend p { s with pendingSend := s.pendingSend ++ [frame] }

/-- `Prioritize::clear_queue` -/
def clearQueue (p : MPrioritize) (s : MStream) : MPrioritize × MStream :=
  let p :=
    match p.inFlight with
    | .dataFrame k => if s.id = k then { p with inFlight := .dropIt } else p
    | _ => p
  (p, { s with pendingSend := [], bufferedSendData := 0,
               requestedSendCapacity := 0 })

/-- `Prioritize::try_assign_capacity` (the
`debug_assert!(total_requested >= available)` is a release no-op; the
u32 subtractions wrap). -/
def tryAssignCapacity (p : MPrioritize) (s : MStream) :
    MPrioritize × MStream :=
  let totalRequested := s.requestedSendCapacity
  let additional := min
    (u32sub totalRequested (Window.asSize s.sendFlow.available))
    (u32sub s.sendFlow.windowSizePub (Window.asSize s.sendFlow.available))
  if additional = 0 then (p, s)
  else
    let connAvailable := Window.asSize p.flow.available
    let (p, s) :=
      if connAvailable > 0 then
        let assign := min connAvailable additional
        ({ p with flow := p.flow.claimCapacity assign },
         s.assignCapacityS assign)
      else (p, s)
    let (p, s) :=
      if Window.sizeLt s.sendFlow.available s.requestedSendCapacity &&
         s.sendFlow.hasUnavailable then
        pushCapacityQ p s
      else (p, s)
    if s.bufferedSendData > 0 && s.isSendReady then pushSendQ p s
    else (p, s)

/-- The loop inside `Prioritize::assign_connection_capacity`.  The Rust
loop terminates because every iteration either permanently consumes a
queue entry or claims at least one unit of connection capacity; `fuel`
is initialised above that measure, so the `none`-on-exhaustion branch is
unreachable. -/
def assignConnCapLoop (fuel : Nat) (p : MPrioritize) (c : MCounts)
    (store : MStore) : Option (MPrioritize × MCounts × MStore) :=
  match fuel with
  | 0 => none
  | fuel + 1 =>
    if Window.posLt p.flow.available then
      match p.pendingCapacity with
      | [] => some (p, c, store)
      | k :: rest =>
          let p := { p with pendingCapacity := rest }
          match storeFind store k with
          | none => none
          | some s =>
              let s := { s with isPendingSendCapacity := false }
              if !(s.state.isSendStreaming || s.bufferedSendData > 0) then
                assignConnCapLoop fuel p c (storeUpdate store k s)
              else do
                -- `counts.transition(stream, |_, s| try_assign_capacity)`
                let isPendingReset := s.isPendingResetExpiration
                let (p, s) := tryAssignCapacity p s
                let (c, store) ← transitionAfter c store s isPendingReset
                assignConnCapLoop fuel p c store
    else some (p, c, store)

/-- `Prioritize::assign_connection_capacity` -/
def assignConnectionCapacity (inc : Nat) (p : MPrioritize) (c : MCounts)
    (store : MStore) : Option (MPrioritize × MCounts × MStore) :=
  let p := { p with flow := p.flow.assignCapacity inc }
  assignConnCapLoop
    (p.pendingCapacity.length + Window.asSize p.flow.available + 1) p c store

/-- `Prioritize::reclaim_all_capacity`.  The stream is written back into
the store first: `assign_connection_capacity` resolves streams (possibly
this one) through the arena. -/
def reclaimAllCapacity (p : MPrioritize) (c : MCounts) (store : MStore)
    (s : MStream) : Option (MPrioritize × MCounts × MStore) :=
  let available := Window.asSize s.sendFlow.available
  let s := { s with sendFlow := s.sendFlow.claimCapacity available }
  assignConnectionCapacity available p c (storeUpdate store s.id s)

/-- `Prioritize::reclaim_reserved_capacity` -/
def reclaimReservedCapacity (p : MPrioritize) (c : MCounts) (store : MStore)
    (s : MStream) : Option (MPrioritize × MCounts × MStore) :=
  if s.requestedSendCapacity > s.bufferedSendData then
    let reserved := s.requestedSendCapacity - s.bufferedSendData
    let s := { s with sendFlow := s.sendFlow.claimCapacity reserved }
    assignConnectionCapacity reserved p c (storeUpdate store s.id s)
  else
    some (p, c, storeUpdate store s.id s)

/-- `Send::send_reset` (send.rs).  The first early return (stream
already reset) leaves everything untouched; the second (closed with a
flushed deque) only records the new `Cause`; otherwise the queue is
cleared, an explicit RST_STREAM is queued and capacity reclaimed. -/
def sendReset (reason : Reason) (p : MPrioritize) (c : MCounts)
    (store : MStore) (s : MStream) : Option (MPrioritize × MCounts × MStore) :=
  let isReset := s.state.isReset
  let isClosed := s.state.isClosed
  let isEmpty := s.pendingSend.isEmpty
  if isReset then
    some (p, c, storeUpdate store s.id s)
  else
    let s := { s with state := s.state.setReset reason }
    if isClosed && isEmpty then
      some (p, c, storeUpdate store s.id s)
    else
      let (p, s) := clearQueue p s
      let (p, s) := queueFrame p s (.resetF reason)
      reclaimAllCapacity p c store s

/-- `Send::schedule_implicit_reset` (send.rs). -/
def scheduleImplicitReset (p : MPrioritize) (c : MCounts) (store : MStore)
    (s : MStream) (reason : Reason) : Option (MPrioritize × MCounts × MStore) :=
  if s.state.isClosed then
    some (p, c, storeUpdate store s.id s)
  else do
    let s := { s with state := s.state.setScheduledReset reason }
    let (p, c, store) ← reclaimReservedCapacity p c store s
    match storeFind store s.id with
    | none => none
    | some s =>
        let (p, s) := scheduleSend p s
        some (p, c, storeUpdate store s.id s)

/-- A frame as returned by `Prioritize::pop_frame`
(`Frame<Prioritized<B>>`): for DATA, `len` is the `buf.take(len)` length
actually emitted, `eos` the (possibly cleared) END_STREAM flag on the
frame and `wrapperEos` the original flag remembered by the `Prioritized`
wrapper for reclaiming. -/
inductive PoppedFrame where
  | dataP (streamKey : Nat) (len : Nat) (eos : Bool) (wrapperEos : Bool)
  | headersP (h : MHeaders)
  | pushPromiseP (promisedId : Nat)
  | resetP (id : Nat) (reason : Reason)
  deriving DecidableEq, Repr

/-- The loop of `Prioritize::pop_frame` (prioritize.rs), recursing on
the shared pending-send queue (`continue` never re-queues, so the queue
shrinks).  The outer `Option` models panics: the `assert!` inside
`FlowControl::send_data` (stream and connection), `store.resolve` /
`find_mut(..).unwrap()` on a missing key, and `Counts` assertions.
The `cfg!(debug_assertions)` last-opened-id bookkeeping is a release
no-op. -/
def popFrameLoop (q : List Nat) (p : MPrioritize) (c : MCounts)
    (store : MStore) (maxLen : Nat) :
    Option (Option PoppedFrame × MPrioritize × MCounts × MStore) :=
  match q with
  | [] => some (none, { p with pendingSend := [] }, c, store)
  | k :: rest => do
    let p := { p with pendingSend := rest }
    match storeFind store k with
    | none => none
    | some s =>
      let s := { s with isPendingSend := false }
      let isPendingReset := s.isPendingResetExpiration
      match s.pendingSend with
      | .dataF sz eos :: restF =>
          let streamCapacity := s.sendFlow.available
          if sz > 0 && Window.eqSize streamCapacity 0 then
            -- stream window exhausted: push the frame back onto the
            -- stream's own deque and move to the next pending stream
            let s := { s with pendingSend := .dataF sz eos :: restF }
            popFrameLoop rest p c (storeUpdate store k s) maxLen
          else do
            let len := min sz maxLen
            let len := min len (Window.asSize streamCapacity)
            let sendFlow ← s.sendFlow.sendData len
            let s := { s with
              sendFlow := sendFlow
              bufferedSendData := u32sub s.bufferedSendData len
              requestedSendCapacity := u32sub s.requestedSendCapacity len
              pendingSend := restF }
            let p := { p with flow := p.flow.assignCapacity len }
            let pflow ← p.flow.sendData len
            let p := { p with flow := pflow }
            let frameEos := if sz > len then false else eos
            let frame := PoppedFrame.dataP k len frameEos eos
            let (p, s) :=
              if !s.pendingSend.isEmpty || s.state.isScheduledReset then
                pushSendQ p s
              else (p, s)
            let (c, store) ← transitionAfter c store s isPendingReset
            some (some frame, p, c, store)
      | .pushPromiseF pid :: restF => do
          let s := { s with pendingSend := restF }
          match storeFind store pid with
          | none => none
          | some pushed =>
            let pushed := { pushed with isPendingPush := false }
            let (p, c, store) ←
              if !pushed.pendingSend.isEmpty then
                if c.canIncNumSendStreams then do
                  let (c, pushed) ← c.incNumSendStreams pushed
                  let (p, pushed) := pushSendQ p pushed
                  some (p, c, storeUpdate store pid pushed)
                else
                  let (p, pushed) := pushOpenQ p pushed
                  some (p, c, storeUpdate store pid pushed)
              else
                some (p, c, storeUpdate store pid pushed)
            let frame := PoppedFrame.pushPromiseP pid
            let (p, s) :=
              if !s.pendingSend.isEmpty || s.state.isScheduledReset then
                pushSendQ p s
              else (p, s)
            let (c, store) ← transitionAfter c store s isPendingReset
            some (some frame, p, c, store)
      | .headersF h :: restF => do
          let s := { s with pendingSend := restF }
          let frame := PoppedFrame.headersP h
          let (p, s) :=
            if !s.pendingSend.isEmpty || s.state.isScheduledReset then
              pushSendQ p s
            else (p, s)
          let (c, store) ← transitionAfter c store s isPendingReset
          some (some frame, p, c, store)
      | .resetF reason :: restF => do
          let s := { s with pendingSend := restF }
          let frame := PoppedFrame.resetP s.id reason
          let (p, s) :=
            if !s.pendingSend.isEmpty || s.state.isScheduledReset then
              pushSendQ p s
            else (p, s)
          let (c, store) ← transitionAfter c store s isPendingReset
          some (some frame, p, c, store)
      | [] =>
          match s.state.getScheduledReset with
          | some reason => do
              let s := { s with state := s.state.setReset reason }
              let frame := PoppedFrame.resetP s.id reason
              let (p, s) :=
                if !s.pendingSend.isEmpty || s.state.isScheduledReset then
                  pushSendQ p s
                else (p, s)
              let (c, store) ← transitionAfter c store s isPendingReset
              some (some frame, p, c, store)
          | none => do
              -- dangling stream: drop it from the queue and continue
              let (c, store) ← transitionAfter c store s isPendingReset
              popFrameLoop rest p c store maxLen

/-- `Prioritize::pop_frame` -/
def popFrame (p : MPrioritize) (c : MCounts) (store : MStore)
    (maxLen : Nat) :
    Option (Option PoppedFrame × MPrioritize × MCounts × MStore) :=
  popFrameLoop p.pendingSend p c store maxLen

/-! ## Claim C10: `Send::send_reset` is idempotent on reset streams -/

/-! ## Claim C2: `Prioritize::pop_frame` and DATA scheduling -/

/-- A concrete one-stream scenario for the C2 witness: stream 1 has a
5-byte DATA frame queued and an exhausted (zero) send window. -/
def c2Stream : MStream :=
  ⟨1, .opened .streaming .streaming, true, 1, true, ⟨65535, 0⟩, 5, 5,
    [.dataF 5 true], false, false, false, false, false, ⟨0, 0⟩, 0,
    false, false, [], .omitted⟩

def c2Store : MStore := [(1, c2Stream)]

def c2Prioritize : MPrioritize := ⟨[1], [], [], ⟨65535, 65535⟩, 0, .nothing⟩

def c2Counts : MCounts := ⟨true, 10, 1, 10, 0, 10, 0⟩

/-! ## Recv / Streams (`recv.rs`, `streams.rs`, `send.rs`): the HEADERS
receive path needed for claim C4 -/

/-- `frame::parse_u64` (headers.rs). -/
def parse_u64 (src : List Nat) : Except Unit Nat :=
  if src.length > 19 then .error ()
  else
    src.foldlM
      (fun ret d =>
        if d < 48 || d > 57 then .error ()
        else .ok (ret * 10 + (d - 48)))
      0

/-- First value of a header name in the (ordered) field list
(`HeaderMap::get`). -/
def fieldsGet (fields : List HField) (name : List Nat) : Option (List Nat) :=
  match fields with
  | [] => none
  | f :: rest => if f.name = name then some f.value else fieldsGet rest name

/-- `fields.contains_key(...)` -/
def fieldsContains (fields : List HField) (name : List Nat) : Bool :=
  (fieldsGet fields name).isSome

/-- `Send::check_headers` (send.rs): reject connection-specific headers;
`te` is allowed only with the exact value `trailers`. -/
def checkHeaders (fields : List HField) : Except UserError Unit :=
  if fieldsContains fields (str2b "connection") ||
     fieldsContains fields (str2b "transfer-encoding") ||
     fieldsContains fields (str2b "upgrade") ||
     fieldsContains fields (str2b "keep-alive") ||
     fieldsContains fields (str2b "proxy-connection") then
    .error .malformedHeaders
  else
    match fieldsGet fields (str2b "te") with
    | some v => if v ≠ str2b "trailers" then .error .malformedHeaders else .ok ()
    | none => .ok ()

/-- `decoded_header_size` (headers.rs): `name + value + 32`. -/
def decodedHeaderSize (name value : Nat) : Nat := name + value + 32

/-- `const MAX_HEADER_LENGTH: usize = 1024 * 16 - 100` (headers.rs). -/
def MAX_HEADER_LENGTH : Nat := 16284

/-- `pseudo_size!` of one optional pseudo header: the macro uses
`stringify!($name).len() + 1` for the name, i.e. the field-name length
plus one for the leading colon. -/
def pseudoSize (nameLen : Nat) (v : Option (List Nat)) : Nat :=
  match v with
  | some m => decodedHeaderSize (nameLen + 1) m.length
  | none => 0

/-- `HeaderBlock::has_too_big_field` (headers.rs); note the source does
not check `status`. -/
def HeaderBlockM.hasTooBigField (b : HeaderBlockM) : Bool :=
  pseudoSize (str2b "method").length b.pseudo.method > MAX_HEADER_LENGTH ||
  pseudoSize (str2b "scheme").length b.pseudo.scheme > MAX_HEADER_LENGTH ||
  pseudoSize (str2b "authority").length b.pseudo.authority > MAX_HEADER_LENGTH ||
  pseudoSize (str2b "path").length b.pseudo.path > MAX_HEADER_LENGTH ||
  b.fields.any
    (fun f => decodedHeaderSize f.name.length f.value.length > MAX_HEADER_LENGTH)

/-- `Headers::has_too_big_field` -/
def MHeaders.hasTooBigField (h : MHeaders) : Bool :=
  h.headerBlock.hasTooBigField

/-- `Send::send_headers` (send.rs).  The outer `Option` models the
`assert!`s inside `Counts::inc_num_send_streams`. -/
def sendHeaders (frame : MHeaders) (p : MPrioritize) (s : MStream)
    (c : MCounts) : Option (Except UserError (MPrioritize × MStream × MCounts)) := do
  match checkHeaders frame.fields with
  | .error e => some (.error e)
  | .ok _ =>
  if frame.hasTooBigField then some (.error .headerTooBig)
  else
    let endStream := frame.isEndStream
    match s.state.sendOpen endStream with
    | .error e => some (.error e)
    | .ok st =>
      let s := { s with state := st }
      let (p, s, c) ←
        if c.isLocalInit frame.streamId then
          if !s.isPendingPush then
            if c.canIncNumSendStreams then do
              let (c, s) ← c.incNumSendStreams s
              some (p, s, c)
            else
              let (p, s) := pushOpenQ p s
              some (p, s, c)
          else some (p, s, c)
        else some (p, s, c)
      let (p, s) := queueFrame p s (.headersF frame)
      some (.ok (p, s, c))

/-- The recv-side connection state used here (`struct Recv`, recv.rs):
the highest processed stream id, the pending-accept queue and the
pending-reset-expiration queue. -/
structure MRecv where
  lastProcessedId : Nat
  pendingAccept : List Nat
  pendingResetExpired : List Nat
  deriving DecidableEq, Repr

/-- `store::Queue::<NextAccept>::push` -/
def pushAcceptQ (r : MRecv) (s : MStream) : MRecv × MStream :=
  if s.isPendingAccept then (r, s)
  else ({ r with pendingAccept := r.pendingAccept ++ [s.id] },
        { s with isPendingAccept := true })

/-- `store::Queue::<NextResetExpire>::push`: enqueueing stamps
`reset_at` (stream.rs `set_queued`). -/
def pushResetExpireQ (r : MRecv) (s : MStream) : MRecv × MStream :=
  if s.resetAt then (r, s)
  else ({ r with pendingResetExpired := r.pendingResetExpired ++ [s.id] },
        { s with resetAt := true })

/-- `server::Peer::convert_poll_message` (server.rs).  The `http` crate
parsing of authority / scheme / path and the final `Request` build are
external collaborators (spec §1) and are treated as succeeding; all
structural checks of the source are kept. -/
def serverConvertPollMessage (pseudo : PseudoM) (_fields : List HField)
    (streamId : Nat) : Except RecvError Unit := do
  let isConnect ←
    match pseudo.method with
    | some m => .ok (decide (m = str2b "CONNECT"))
    | none => .error (.stream streamId .protocolError)
  if pseudo.status.isSome then
    .error (.connection .protocolError)
  else
  match pseudo.scheme with
  | some _ =>
      if isConnect then .error (.stream streamId .protocolError) else .ok ()
  | none =>
      if !isConnect then .error (.stream streamId .protocolError) else .ok ()
  match pseudo.path with
  | some path =>
      if isConnect then .error (.stream streamId .protocolError)
      else if path.isEmpty then .error (.stream streamId .protocolError)
      else .ok ()
  | none => .ok ()

/-- `client::Peer::convert_poll_message` (client.rs): builds a Response;
only the (external) builder can fail, so the check-free path is `Ok`. -/
def clientConvertPollMessage (_pseudo : PseudoM) (_fields : List HField)
    (_streamId : Nat) : Except RecvError Unit := .ok ()

/-- `peer::Dyn::convert_poll_message` -/
def convertPollMessage (isServer : Bool) (pseudo : PseudoM)
    (fields : List HField) (streamId : Nat) : Except RecvError Unit :=
  if isServer then serverConvertPollMessage pseudo fields streamId
  else clientConvertPollMessage pseudo fields streamId

/-- `RecvHeaderBlockError` (recv.rs). -/
inductive RHBErr where
  | oversize (resp : Option MHeaders)
  | stateErr (e : RecvError)
  deriving DecidableEq, Repr

/-- `Recv::recv_headers` (recv.rs).  Returns the mutated recv state,
stream and counts together with the error, if any (the Rust `&mut`
side effects before an early `return Err` persist); the outer `Option`
models the `assert!` in `Counts::inc_num_recv_streams`. -/
def recvRecvHeaders (r : MRecv) (frame : MHeaders) (s : MStream)
    (c : MCounts) :
    Option (MRecv × MStream × MCounts × Option RHBErr) := do
  match s.state.recvOpen frame.isEndStream with
  | .error e => some (r, s, c, some (.stateErr e))
  | .ok (st, isInitial) =>
    let s := { s with state := st }
    let (r, c, s) ←
      if isInitial then do
        let r :=
          if frame.streamId > r.lastProcessedId then
            { r with lastProcessedId := frame.streamId }
          else r
        let (c, s) ← c.incNumRecvStreams s
        some (r, c, s)
      else some (r, c, s)
    match
      (if !s.contentLength.isHead then
        match fieldsGet frame.fields (str2b "content-length") with
        | some v =>
            match parse_u64 v with
            | .ok n => Except.ok { s with contentLength := .remaining n }
            | .error _ =>
                Except.error (RecvError.stream s.id .protocolError)
        | none => Except.ok s
      else Except.ok s) with
    | .error e => some (r, s, c, some (.stateErr e))
    | .ok s =>
    if frame.isOverSize then
      if c.isServer && isInitial then
        let res := (MHeaders.new s.id (PseudoM.response 431) []).setEndStream
        some (r, s, c, some (.oversize (some res)))
      else
        some (r, s, c, some (.oversize none))
    else
      match convertPollMessage c.isServer frame.headerBlock.pseudo
          frame.headerBlock.fields frame.streamId with
      | .error e => some (r, s, c, some (.stateErr e))
      | .ok _ =>
        let s := { s with pendingRecv := s.pendingRecv ++ [.headersEvent] }
        if c.isServer then
          let (r, s) := pushAcceptQ r s
          some (r, s, c, none)
        else
          some (r, s, c, none)

/-- `Recv::recv_trailers` (recv.rs); the trailer fields carried by the
event are immaterial here. -/
def recvTrailers (_frame : MHeaders) (s : MStream) :
    Except RecvError MStream :=
  match s.state.recvClose with
  | .error e => .error e
  | .ok st =>
    let s := { s with state := st }
    match s.contentLength with
    | .remaining n =>
        if n ≠ 0 then .error (.stream s.id .protocolError)
        else .ok { s with pendingRecv := s.pendingRecv ++ [.trailersEvent] }
    | _ => .ok { s with pendingRecv := s.pendingRecv ++ [.trailersEvent] }

/-- `Recv::enqueue_reset_expiration` (recv.rs).  The eviction arm pops
the oldest pending-reset stream and releases it through
`transition_after`. -/
def enqueueResetExpiration (r : MRecv) (c : MCounts) (store : MStore)
    (s : MStream) : Option (MRecv × MCounts × MStore × MStream) := do
  if !s.state.isLocalReset || s.isPendingResetExpiration then
    some (r, c, store, s)
  else do
    let (r, c, store) ←
      if !c.canIncNumResetStreams then
        match r.pendingResetExpired with
        | [] => some (r, c, store)
        | k :: rest =>
            let r := { r with pendingResetExpired := rest }
            match storeFind store k with
            | none => none
            | some evicted => do
                let evicted := { evicted with resetAt := false }
                let (c, store) ← transitionAfter c store evicted true
                some (r, c, store)
      else some (r, c, store)
    if c.canIncNumResetStreams then do
      let c ← c.incNumResetStreams
      let (r, s) := pushResetExpireQ r s
      some (r, c, store, s)
    else
      some (r, c, store, s)

/-- `Streams::reset_on_recv_stream_err` (streams.rs): a stream-scoped
error resets just that stream (RST_STREAM) and is swallowed; everything
else propagates. -/
def resetOnRecvStreamErr (p : MPrioritize) (c : MCounts) (store : MStore)
    (s : MStream) (res : Except RecvError Unit) :
    Option (Except RecvError Unit × MPrioritize × MCounts × MStore) := do
  match res with
  | .error (.stream _ reason) => do
      let (p, c, store) ← sendReset reason p c store s
      some (.ok (), p, c, store)
  | other => some (other, p, c, store, )

/-- The per-stream core of `Streams::recv_headers` (streams.rs): the
`is_local_reset` early return, the `counts.transition` wrapper, the
dispatch between initial-headers and trailers, the oversize handling
(queue the synthesized 431, schedule the implicit reset, enqueue reset
expiration), `reset_on_recv_stream_err`, and the closing
`transition_after`.  The preceding open/insert path (the
`max_stream_id` guard, `Recv::open` and the `Stream::new` insertion,
streams.rs lines 97-140) is taken as given: the theorem starts from the
freshly inserted stream. -/
def streamsRecvHeadersCore (r : MRecv) (p : MPrioritize) (c : MCounts)
    (store : MStore) (k : Nat) (frame : MHeaders) :
    Option (Except RecvError Unit × MRecv × MPrioritize × MCounts × MStore) := do
  match storeFind store k with
  | none => none
  | some s =>
    if s.state.isLocalReset then some (.ok (), r, p, c, store)
    else do
      let isPendingReset := s.isPendingResetExpiration
      let (res, r, p, c, store, s) ←
        if s.state.isRecvHeaders then do
          let (r2, s2, c2, err) ← recvRecvHeaders r frame s c
          match err with
          | none => some (Except.ok (), r2, p, c2, store, s2)
          | some (.oversize (some resp)) => do
              let sent ← sendHeaders resp p s2 c2
              -- `debug_assert!(sent.is_ok(), ..)` is a release no-op
              let (p, s2, c2) :=
                match sent with
                | .ok v => v
                | .error _ => (p, s2, c2)
              let (p, c2, store) ←
                scheduleImplicitReset p c2 store s2 Reason.refusedStream
              match storeFind store k with
              | none => none
              | some s3 => do
                  let (r2, c2, store, s4) ←
                    enqueueResetExpiration r2 c2 store s3
                  some (Except.ok (), r2, p, c2, store, s4)
          | some (.oversize none) =>
              some (Except.error (RecvError.stream s2.id .refusedStream),
                r2, p, c2, store, s2)
          | some (.stateErr e) => some (Except.error e, r2, p, c2, store, s2)
        else
          if !frame.isEndStream then
            some (Except.error (RecvError.stream s.id .protocolError),
              r, p, c, store, s)
          else
            match recvTrailers frame s with
            | .ok s2 => some (Except.ok (), r, p, c, store, s2)
            | .error e => some (Except.error e, r, p, c, store, s)
      -- `store::Ptr` mutations are in place: land the mutated stream in
      -- the arena before the follow-up passes resolve it again
      let store := storeUpdate store s.id s
      let (res, p, c, store) ← resetOnRecvStreamErr p c store s res
      match storeFind store s.id with
      | none => none
      | some sFinal => do
          let (c, store) ← transitionAfter c store sFinal isPendingReset
          some (res, r, p, c, store)

/-- The synthesized 431 REQUEST_HEADER_FIELDS_TOO_LARGE response for
stream `k`, END_STREAM set. -/
def resp431 (k : Nat) : MHeaders :=
  (MHeaders.new k (PseudoM.response 431) []).setEndStream

/-- Claim C4 at one input, as stated: on a server, an initial oversize
HEADERS frame yields no connection-level error, the synthesized 431
(END_STREAM) response is queued on that stream, and the stream ends up
scheduled for an implicit reset with reason REFUSED_STREAM. -/
def c4ClaimAt (r : MRecv) (p : MPrioritize) (c : MCounts) (store : MStore)
    (k : Nat) (frame : MHeaders) : Prop :=
  ∃ r' p' c' store' s',
    streamsRecvHeadersCore r p c store k frame =
      some (Except.ok (), r', p', c', store') ∧
    storeFind store' k = some s' ∧
    s'.pendingSend = [SFrame.headersF (resp431 k)] ∧
    s'.state.getScheduledReset = some Reason.refusedStream

/-- The concrete counterexample scenario: stream 1, fresh as inserted by
`Stream::new(1, 65535, 65535)`. -/
def c4Stream : MStream :=
  ⟨1, .idle, false, 0, false, ⟨65535, 0⟩, 0, 0, [], false, false, false,
    false, false, ⟨65535, 65535⟩, 0, false, false, [], .omitted⟩

def c4Store : MStore := [(1, c4Stream)]

def c4Recv : MRecv := ⟨0, [], []⟩

def c4Prioritize : MPrioritize := ⟨[], [], [], ⟨65535, 65535⟩, 0, .nothing⟩

def c4Counts : MCounts := ⟨true, 10, 0, 10, 0, 10, 0⟩

/-- An oversize initial HEADERS frame for stream 1 that itself carries
END_STREAM (flags = END_HEADERS | END_STREAM). -/
def c4FrameEos : MHeaders :=
  ⟨1, none, ⟨[], true, ⟨some (str2b "GET"), some (str2b "http"), none,
    some (str2b "/"), none⟩⟩, H_END_HEADERS ||| H_END_STREAM⟩

/-- An oversize initial HEADERS frame for stream 1 without END_STREAM. -/
def c4FrameNoEos : MHeaders :=
  ⟨1, none, ⟨[], true, ⟨some (str2b "GET"), some (str2b "http"), none,
    some (str2b "/"), none⟩⟩, H_END_HEADERS⟩

/-! ## Claim C7: the server connection preface (`server.rs`) -/

/-- `const PREFACE: [u8; 24] = *b"PRI * HTTP/2.0\r\n\r\nSM\r\n\r\n"` -/
def PREFACE : List Nat := str2b "PRI * HTTP/2.0\r\n\r\nSM\r\n\r\n"

/-- Outcome of one `ReadPreface::poll` invocation. -/
inductive PrefaceOutcome where
  | accepted
  | protocolError
  | eofError
  | pending
  | panicked
  deriving DecidableEq, Repr

/-- The `while rem > 0` loop of `ReadPreface::poll` (server.rs 365-389)
over one poll invocation.  The transport is the list of successive
`poll_read` results (an empty chunk models a `0`-byte read, i.e. EOF;
an exhausted list models `Poll::Pending`).  `buf` is the 24-byte local
buffer, zero-initialised at entry and only partially overwritten by each
read; the source compares the slice `PREFACE[pos..pos+n]` against the
*entire* 24-byte `buf` (`&PREFACE[self.pos..self.pos + n] != &buf`), a
slice-vs-array comparison that is unequal whenever `n != 24`.
`panicked` models the out-of-range slice when `pos + n > 24`
(unreachable from `pos = 0`). -/
def readPrefaceLoop (pos : Nat) (buf : List Nat)
    (chunks : List (List Nat)) : PrefaceOutcome :=
  if 24 - pos = 0 then .accepted
  else
    match chunks with
    | [] => .pending
    | c :: rest =>
        let n := c.length
        if n = 0 then .eofError
        else if pos + n > 24 then .panicked
        else
          let buf2 := c ++ buf.drop n
          if ((PREFACE.drop pos).take n) ≠ buf2 then .protocolError
          else readPrefaceLoop (pos + n) buf2 rest

/-- `ReadPreface::poll` from a fresh handshake (`pos = 0`, zeroed
buffer). -/
def readPreface (chunks : List (List Nat)) : PrefaceOutcome :=
  readPrefaceLoop 0 (List.replicate 24 0) chunks

/-! ## HPACK decoder (`hpack/decoder.rs`) -/

/-- `enum NeedMore` (decoder.rs). -/
inductive NeedMoreE where
  | unexpectedEndOfStream
  | integerUnderflow
  | stringUnderflow
  deriving DecidableEq, Repr

/-- `enum DecoderError` (decoder.rs). -/
inductive DecErr where
  | invalidRepresentation
  | invalidIntegerPrefix
  | invalidTableIndex
  | invalidHuffmanCode
  | invalidUtf8
  | invalidStatusCode
  | invalidPseudoheader
  | invalidMaxDynamicSize
  | integerOverflow
  | needMore (e : NeedMoreE)
  deriving DecidableEq, Repr

/-- `hpack::Header` — `hpack/header.rs` is not under src/.  Modelled
from the spec (§3, glossary): an entry is either a regular
(name, value) pair or one of the five pseudo-headers. -/
inductive HeaderH where
  | field (name value : List Nat)
  | authority (v : List Nat)
  | method (v : List Nat)
  | scheme (v : List Nat)
  | path (v : List Nat)
  | status (v : Nat)
  deriving DecidableEq, Repr

/-- `Header::len` — modelled from the spec (§3): RFC 7541 accounting,
`len(name) + len(value) + 32`, pseudo-header names written with their
leading colon (a status value prints as three digits). -/
def HeaderH.size : HeaderH → Nat
  | .field n v => n.length + v.length + 32
  | .authority v => 10 + v.length + 32
  | .method v => 7 + v.length + 32
  | .scheme v => 7 + v.length + 32
  | .path v => 5 + v.length + 32
  | .status _ => 7 + 3 + 32

/-- Parse a decimal status value (`http::StatusCode` is an external
collaborator; three digits, 100-999). -/
def statusParse (v : List Nat) : Except DecErr Nat :=
  match parse_u64 v with
  | .ok n => if 100 ≤ n && n ≤ 999 then .ok n else .error .invalidStatusCode
  | .error _ => .error .invalidStatusCode

/-- `Header::new` — modelled from the spec: a name starting with `:`
selects the pseudo-header variant (anything else starting with `:` is
`InvalidPseudoheader`); the `http` crate validation of regular names and
values is external. -/
def headerNew (name value : List Nat) : Except DecErr HeaderH :=
  if name = str2b ":authority" then .ok (.authority value)
  else if name = str2b ":method" then .ok (.method value)
  else if name = str2b ":scheme" then .ok (.scheme value)
  else if name = str2b ":path" then .ok (.path value)
  else if name = str2b ":status" then
    match statusParse value with
    | .ok n => .ok (.status n)
    | .error e => .error e
  else if name.head? = some 58 then .error .invalidPseudoheader
  else .ok (.field name value)

/-- `Header::name().into_entry(value)` — modelled from the spec: reuse
the entry's name with a fresh value. -/
def HeaderH.intoEntry : HeaderH → List Nat → Except DecErr HeaderH
  | .field n _, v => .ok (.field n v)
  | .authority _, v => .ok (.authority v)
  | .method _, v => .ok (.method v)
  | .scheme _, v => .ok (.scheme v)
  | .path _, v => .ok (.path v)
  | .status _, v =>
      match statusParse v with
      | .ok n => .ok (.status n)
      | .error e => .error e

/-- `get_static` (decoder.rs): the 61 fixed entries of RFC 7541
Appendix A. -/
def getStatic (idx : Nat) : HeaderH :=
  match idx with
  | 1 => .authority []
  | 2 => .method (str2b "GET")
  | 3 => .method (str2b "POST")
  | 4 => .path (str2b "/")
  | 5 => .path (str2b "/index.html")
  | 6 => .scheme (str2b "http")
  | 7 => .scheme (str2b "https")
  | 8 => .status 200
  | 9 => .status 204
  | 10 => .status 206
  | 11 => .status 304
  | 12 => .status 400
  | 13 => .status 404
  | 14 => .status 500
  | 15 => .field (str2b "accept-charset") []
  | 16 => .field (str2b "accept-encoding") (str2b "gzip, deflate")
  | 17 => .field (str2b "accept-language") []
  | 18 => .field (str2b "accept-ranges") []
  | 19 => .field (str2b "accept") []
  | 20 => .field (str2b "access-control-allow-origin") []
  | 21 => .field (str2b "age") []
  | 22 => .field (str2b "allow") []
  | 23 => .field (str2b "authorization") []
  | 24 => .field (str2b "cache-control") []
  | 25 => .field (str2b "content-disposition") []
  | 26 => .field (str2b "content-encoding") []
  | 27 => .field (str2b "content-language") []
  | 28 => .field (str2b "content-length") []
  | 29 => .field (str2b "content-location") []
  | 30 => .field (str2b "content-range") []
  | 31 => .field (str2b "content-type") []
  | 32 => .field (str2b "cookie") []
  | 33 => .field (str2b "date") []
  | 34 => .field (str2b "etag") []
  | 35 => .field (str2b "expect") []
  | 36 => .field (str2b "expires") []
  | 37 => .field (str2b "from") []
  | 38 => .field (str2b "host") []
  | 39 => .field (str2b "if-match") []
  | 40 => .field (str2b "if-modified-since") []
  | 41 => .field (str2b "if-none-match") []
  | 42 => .field (str2b "if-range") []
  | 43 => .field (str2b "if-unmodified-since") []
  | 44 => .field (str2b "last-modified") []
  | 45 => .field (str2b "link") []
  | 46 => .field (str2b "location") []
  | 47 => .field (str2b "max-forwards") []
  | 48 => .field (str2b "proxy-authenticate") []
  | 49 => .field (str2b "proxy-authorization") []
  | 50 => .field (str2b "range") []
  | 51 => .field (str2b "referer") []
  | 52 => .field (str2b "refresh") []
  | 53 => .field (str2b "retry-after") []
  | 54 => .field (str2b "server") []
  | 55 => .field (str2b "set-cookie") []
  | 56 => .field (str2b "strict-transport-security") []
  | 57 => .field (str2b "transfer-encoding") []
  | 58 => .field (str2b "user-agent") []
  | 59 => .field (str2b "vary") []
  | 60 => .field (str2b "via") []
  | _ => .field (str2b "www-authenticate") []

/-- `struct Table` (decoder.rs): dynamic entries front-to-back, running
byte size, negotiated maximum. -/
structure TableM where
  entries : List HeaderH
  size : Nat
  maxSize : Nat
  deriving DecidableEq, Repr

/-- `Table::get` -/
def TableM.get (t : TableM) (index : Nat) : Except DecErr HeaderH :=
  if index = 0 then .error .invalidTableIndex
  else if index ≤ 61 then .ok (getStatic index)
  else
    match t.entries.get? (index - 62) with
    | some e => .ok e
    | none => .error .invalidTableIndex

/-- The `while` of `Table::reserve`: evict from the back until the new
entry fits or the table is empty; the fuel starts above the entry count
so the `0` arm is never the reason the loop stops. -/
def tableReserveLoop (fuel : Nat) (t : TableM) (needed : Nat) : TableM :=
  match fuel with
  | 0 => t
  | fuel + 1 =>
      if t.size + needed > t.maxSize then
        match t.entries.getLast? with
        | some last =>
            tableReserveLoop fuel
              { t with entries := t.entries.dropLast, size := t.size - last.size }
              needed
        | none => t
      else t

/-- `Table::reserve` -/
def TableM.reserve (t : TableM) (needed : Nat) : TableM :=
  tableReserveLoop (t.entries.length + 1) t needed

/-- `Table::insert` -/
def TableM.insert (t : TableM) (entry : HeaderH) : TableM :=
  let len := entry.size
  let t := t.reserve len
  if t.size + len ≤ t.maxSize then
    { t with size := t.size + len, entries := entry :: t.entries }
  else t

/-- The `while` of `Table::consolidate`; `none` models the
`panic!("Size of table != 0, but no headers left!")` arm. -/
def tableConsolidateLoop (fuel : Nat) (t : TableM) : Option TableM :=
  match fuel with
  | 0 => if t.size > t.maxSize then none else some t
  | fuel + 1 =>
      if t.size > t.maxSize then
        match t.entries.getLast? with
        | none => none
        | some last =>
            tableConsolidateLoop fuel
              { t with entries := t.entries.dropLast, size := t.size - last.size }
      else some t

/-- `Table::set_max_size` -/
def TableM.setMaxSize (t : TableM) (size : Nat) : Option TableM :=
  tableConsolidateLoop (t.entries.length + 1) { t with maxSize := size }

/-- The continuation-byte loop of `decode_int` (decoder.rs):
`ret += (b & 0x7f) << shift`, stop on a clear high bit, hard-fail after
`MAX_BYTES = 5` total bytes. -/
def decodeIntLoop (buf : List Nat) (ret bytes shift : Nat) :
    Except DecErr (Nat × List Nat) :=
  match buf with
  | [] => .error (.needMore .integerUnderflow)
  | b :: rest =>
      let bytes := bytes + 1
      let ret := ret + (b &&& 0x7f) <<< shift
      if b &&& 0x80 = 0 then .ok (ret, rest)
      else if bytes = 5 then .error .integerOverflow
      else decodeIntLoop rest ret bytes (shift + 7)

/-- `decode_int` (decoder.rs). -/
def decodeInt (buf : List Nat) (prefixSize : Nat) :
    Except DecErr (Nat × List Nat) :=
  if prefixSize < 1 || prefixSize > 8 then .error .invalidIntegerPrefix
  else
    match buf with
    | [] => .error (.needMore .integerUnderflow)
    | b :: rest =>
        let mask := if prefixSize = 8 then 0xFF else (1 <<< prefixSize) - 1
        let ret := b &&& mask
        if ret < mask then .ok (ret, rest)
        else decodeIntLoop rest ret 1 0

/-- `huffman::decode` — hpack/huffman/table.rs (the DFA tables) is not
under src/.  Modelled from the spec: the spec says only that strings may
be Huffman-coded; nothing in the decoder control flow verified here
depends on the code mapping, so the coder is modelled as the identity on
byte strings. -/
def huffmanDecode (src : List Nat) : Except DecErr (List Nat) := .ok src

/-- `decode_string` (decoder.rs). -/
def decodeString (buf : List Nat) : Except DecErr (List Nat × List Nat) :=
  match buf with
  | [] => .error (.needMore .unexpectedEndOfStream)
  | hdr :: _ =>
      let huff := hdr &&& 0x80 = 0x80
      match decodeInt buf 7 with
      | .error e => .error e
      | .ok (len, rest) =>
          if len > rest.length then .error (.needMore .stringUnderflow)
          else
            let raw := rest.take len
            let remaining := rest.drop len
            if huff then
              match huffmanDecode raw with
              | .ok s => .ok (s, remaining)
              | .error e => .error e
            else .ok (raw, remaining)

/-- `Decoder::decode_indexed` -/
def decodeIndexed (t : TableM) (buf : List Nat) :
    Except DecErr (HeaderH × List Nat) :=
  match decodeInt buf 7 with
  | .error e => .error e
  | .ok (index, rest) =>
      match t.get index with
      | .error e => .error e
      | .ok h => .ok (h, rest)

/-- `Decoder::decode_literal` -/
def decodeLiteral (t : TableM) (buf : List Nat) (index : Bool) :
    Except DecErr (HeaderH × List Nat) :=
  let prefixSz := if index then 6 else 4
  match decodeInt buf prefixSz with
  | .error e => .error e
  | .ok (tableIdx, rest) =>
      if tableIdx = 0 then
        match decodeString rest with
        | .error e => .error e
        | .ok (name, rest) =>
            match decodeString rest with
            | .error e => .error e
            | .ok (value, rest) =>
                match headerNew name value with
                | .error e => .error e
                | .ok h => .ok (h, rest)
      else
        match t.get tableIdx with
        | .error e => .error e
        | .ok e =>
            match decodeString rest with
            | .error err => .error err
            | .ok (value, rest) =>
                match e.intoEntry value with
                | .error err => .error err
                | .ok h => .ok (h, rest)

/-- `enum Representation` (decoder.rs). -/
inductive Rep where
  | indexed
  | literalWithIndexing
  | literalWithoutIndexing
  | literalNeverIndexed
  | sizeUpdate
  deriving DecidableEq, Repr

/-- `Representation::load` (decoder.rs). -/
def loadRep (byte : Nat) : Except DecErr Rep :=
  if byte &&& 0x80 = 0x80 then .ok .indexed
  else if byte &&& 0x40 = 0x40 then .ok .literalWithIndexing
  else if byte &&& 0xf0 = 0 then .ok .literalWithoutIndexing
  else if byte &&& 0xf0 = 0x10 then .ok .literalNeverIndexed
  else if byte &&& 0xe0 = 0x20 then .ok .sizeUpdate
  else .error .invalidRepresentation

/-- The state threaded through `Decoder::decode`'s loop: the
settings-acknowledged maximum (`last_max_update`) and the dynamic
table. -/
structure LoopSt where
  lastMaxUpdate : Nat
  table : TableM
  deriving DecidableEq, Repr

/-- One iteration of `Decoder::decode`'s `while let Some(ty) = peek_u8`
loop.  `none` models the consolidate panic inside `set_max_size`;
`some (.ok none)` is loop exit on exhausted input; otherwise the next
loop state, `can_resize` flag, emitted header (size updates emit
nothing) and remaining bytes. -/
def decodeOne (st : LoopSt) (canResize : Bool) (buf : List Nat) :
    Option (Except DecErr (Option (LoopSt × Bool × Option HeaderH × List Nat))) :=
  match buf with
  | [] => some (.ok none)
  | ty :: _ =>
      match loadRep ty with
      | .error e => some (.error e)
      | .ok .indexed =>
          match decodeIndexed st.table buf with
          | .error e => some (.error e)
          | .ok (entry, rest) => some (.ok (some (st, false, some entry, rest)))
      | .ok .literalWithIndexing =>
          match decodeLiteral st.table buf true with
          | .error e => some (.error e)
          | .ok (entry, rest) =>
              some (.ok (some ({ st with table := st.table.insert entry },
                false, some entry, rest)))
      | .ok .literalWithoutIndexing =>
          match decodeLiteral st.table buf false with
          | .error e => some (.error e)
          | .ok (entry, rest) => some (.ok (some (st, false, some entry, rest)))
      | .ok .literalNeverIndexed =>
          match decodeLiteral st.table buf false with
          | .error e => some (.error e)
          | .ok (entry, rest) => some (.ok (some (st, false, some entry, rest)))
      | .ok .sizeUpdate =>
          if !canResize then some (.error .invalidMaxDynamicSize)
          else
            -- `process_size_update`
            match decodeInt buf 5 with
            | .error e => some (.error e)
            | .ok (newSize, rest) =>
                if newSize > st.lastMaxUpdate then
                  some (.error .invalidMaxDynamicSize)
                else
                  match st.table.setMaxSize newSize with
                  | none => none
                  | some t2 =>
                      some (.ok (some ({ st with table := t2 }, canResize,
                        none, rest)))

/-- The `while let Some(ty) = peek_u8(src)` loop of `Decoder::decode`,
iterating `decodeOne` and collecting the headers handed to the callback
`f`.  Every iteration consumes at least one byte, so fuel one above the
buffer length never runs out; `none` models a panic inside an
iteration (and the unreachable fuel-exhaustion arm). -/
def decodeLoopF : Nat → LoopSt → Bool → List Nat →
    Option (Except DecErr (LoopSt × List HeaderH))
  | 0, _, _, _ => none
  | fuel + 1, st, canResize, buf =>
      match decodeOne st canResize buf with
      | none => none
      | some (.error e) => some (.error e)
      | some (.ok none) => some (.ok (st, []))
      | some (.ok (some (st2, cr2, eOpt, rest))) =>
          match decodeLoopF fuel st2 cr2 rest with
          | none => none
          | some (.error e) => some (.error e)
          | some (.ok (stF, hs)) => some (.ok (stF, eOpt.toList ++ hs))

/-- `Decoder::decode`'s loop from a given configuration. -/
def decodeLoop (st : LoopSt) (canResize : Bool) (buf : List Nat) :
    Option (Except DecErr (LoopSt × List HeaderH)) :=
  decodeLoopF (buf.length + 1) st canResize buf

/-- The decoder fields relevant to `decode` (decoder.rs `Decoder`):
`max_size_update`, `last_max_update` and the dynamic table. -/
structure DecoderM where
  maxSizeUpdate : Option Nat
  lastMaxUpdate : Nat
  table : TableM
  deriving DecidableEq, Repr

/-- `Decoder::new` -/
def decoderNew (size : Nat) : DecoderM :=
  { maxSizeUpdate := none
    lastMaxUpdate := size
    table := { entries := [], size := 0, maxSize := size } }

/-- The `last_max_update` in force for a `decode` call, after the
`max_size_update.take()` at its head. -/
def DecoderM.effLastMax (d : DecoderM) : Nat :=
  match d.maxSizeUpdate with
  | some s => s
  | none => d.lastMaxUpdate

/-- `Decoder::decode`: take the queued size update into
`last_max_update`, run the loop with `can_resize = true`, return the
emitted headers (the calls to `f`). -/
def decodeD (d : DecoderM) (buf : List Nat) :
    Option (Except DecErr (DecoderM × List HeaderH)) :=
  match decodeLoop { lastMaxUpdate := d.effLastMax, table := d.table } true buf with
  | none => none
  | some (.error e) => some (.error e)
  | some (.ok (st, hs)) =>
      some (.ok ({ maxSizeUpdate := none
                   lastMaxUpdate := st.lastMaxUpdate
                   table := st.table }, hs))

/-- Reachability between configurations of `Decoder::decode`'s loop:
`DecReach a b` holds when the loop, started at configuration `a`
(state, `can_resize`, remaining bytes), performs zero or more complete
iterations and stands at configuration `b`. -/
inductive DecReach :
    LoopSt × Bool × List Nat → LoopSt × Bool × List Nat → Prop where
  | refl (c : LoopSt × Bool × List Nat) : DecReach c c
  | step {st : LoopSt} {cr : Bool} {buf : List Nat} {st2 : LoopSt}
      {cr2 : Bool} {eOpt : Option HeaderH} {rest : List Nat}
      {c : LoopSt × Bool × List Nat}
      (h : decodeOne st cr buf = some (.ok (some (st2, cr2, eOpt, rest))))
      (htail : DecReach (st2, cr2, rest) c) :
      DecReach (st, cr, buf) c

/-- The empty dynamic table with acknowledged maximum 4096, and the
same table after accepting a size update to 0. -/
def c5Table : TableM := { entries := [], size := 0, maxSize := 4096 }

/-- The loop state holding [[c5Table]]. -/
def c5St : LoopSt := { lastMaxUpdate := 4096, table := c5Table }

/-! ## Frame wire codec (claim C6)

`frame/data.rs`, `frame/headers.rs`, `frame/ping.rs`, `frame/util.rs`
and `codec/framed_write.rs` are under src/ and are followed.
`frame/head.rs`, `frame/settings.rs`, `frame/go_away.rs`,
`frame/window_update.rs`, `frame/reset.rs`, `frame/priority.rs` and
`codec/framed_read.rs` are not under src/: those layouts are modelled
from the spec (§4.1, §6: 9-byte header = 3-byte big-endian length,
1-byte type, 1-byte flags, 1-bit reserved + 31-bit stream id).  The
HPACK block coder used for HEADERS/PUSH_PROMISE payloads is likewise
modelled from the spec (§8 asserts its round trip separately): an
invertible serialization of the pseudo fields in the order
`Iter::next` emits them (method, scheme, authority, path, status)
followed by the field list. -/

/-- Big-endian recombination of a byte list. -/
def rdBe (l : List Nat) : Nat := l.foldl (fun a b => a * 256 + b) 0

/-- Two big-endian bytes. -/
def u16be (n : Nat) : List Nat := [n / 256 % 256, n % 256]

/-- Three big-endian bytes. -/
def u24be (n : Nat) : List Nat := [n / 65536 % 256, n / 256 % 256, n % 256]

/-- Four big-endian bytes. -/
def u32be (n : Nat) : List Nat :=
  [n / 16777216 % 256, n / 65536 % 256, n / 256 % 256, n % 256]

/-- `Head` — modelled from the spec (frame/head.rs is not under src/). -/
structure FrameHeadC where
  length : Nat
  kind : Nat
  flag : Nat
  streamId : Nat
  deriving DecidableEq, Repr

/-- `Head::encode` — modelled from the spec §6 layout. -/
def headEncode (len kind flag streamId : Nat) : List Nat :=
  u24be len ++ kind :: flag :: u32be streamId

/-- Parsing the 9-byte header — modelled from the spec §6 (the high bit
of the stream-id word is reserved and masked off). -/
def headParse : List Nat → Option (FrameHeadC × List Nat)
  | l1 :: l2 :: l3 :: k :: fl :: s1 :: s2 :: s3 :: s4 :: rest =>
      some (⟨rdBe [l1, l2, l3], k, fl, rdBe [s1, s2, s3, s4] % 2147483648⟩,
        rest)
  | _ => none

/-- `frame::Data` (data.rs): raw flag byte and the `pad_len` recorded by
`load` (write-only; `encode_chunk` never re-emits padding). -/
structure DataF where
  streamId : Nat
  data : List Nat
  flags : Nat
  padLen : Option Nat
  deriving DecidableEq, Repr

/-- `util::strip_padding`. -/
def stripPadding (payload : List Nat) : Option (Nat × List Nat) :=
  match payload with
  | [] => none
  | padLen :: rest =>
      if padLen ≥ payload.length then none
      else some (padLen, rest.take (payload.length - padLen - 1))

/-- `Data::load` (data.rs): mask the flags with `END_STREAM | PADDED`,
reject stream id zero, strip padding when the PADDED flag is set. -/
def dataLoad (hd : FrameHeadC) (payload : List Nat) : Option DataF :=
  let flags := hd.flag &&& 9
  if hd.streamId = 0 then none
  else if flags &&& 8 = 8 then
    match stripPadding payload with
    | none => none
    | some (padLen, data) => some ⟨hd.streamId, data, flags, some padLen⟩
  else some ⟨hd.streamId, payload, flags, none⟩

/-- `Data::encode_chunk` (data.rs): head (kind 0, the frame's own flag
byte) followed by the payload, never any padding. -/
def dataEncode (d : DataF) : List Nat :=
  headEncode d.data.length 0 d.flags d.streamId ++ d.data

/-- `frame::Ping` (ping.rs). -/
structure PingF where
  ack : Bool
  payload : List Nat
  deriving DecidableEq, Repr

/-- `Ping::load` (ping.rs): stream id must be zero, payload exactly 8
bytes, ACK is flag bit 0. -/
def pingLoad (hd : FrameHeadC) (payload : List Nat) : Option PingF :=
  if hd.streamId ≠ 0 then none
  else if payload.length ≠ 8 then none
  else some ⟨hd.flag &&& 1 ≠ 0, payload⟩

/-- `Ping::encode` (ping.rs): kind 6, flag = ACK bit, stream id zero. -/
def pingEncode (p : PingF) : List Nat :=
  headEncode p.payload.length 6 (if p.ack then 1 else 0) 0 ++ p.payload

/-- `frame::Reset` — modelled from the spec §6: a 4-byte error code. -/
structure ResetF where
  streamId : Nat
  errorCode : Nat
  deriving DecidableEq, Repr

/-- RST_STREAM decode — modelled from the spec. -/
def resetLoad (hd : FrameHeadC) (payload : List Nat) : Option ResetF :=
  match payload with
  | [a, b, c, d] => some ⟨hd.streamId, rdBe [a, b, c, d]⟩
  | _ => none

/-- RST_STREAM encode — modelled from the spec: kind 3, no flags. -/
def resetEncode (r : ResetF) : List Nat :=
  headEncode 4 3 0 r.streamId ++ u32be r.errorCode

/-- `frame::GoAway` — modelled from the spec §6: last processed stream
id, 4-byte error code, opaque debug data. -/
structure GoAwayF where
  lastStreamId : Nat
  errorCode : Nat
  debugData : List Nat
  deriving DecidableEq, Repr

/-- GOAWAY decode — modelled from the spec. -/
def goAwayLoad (hd : FrameHeadC) (payload : List Nat) : Option GoAwayF :=
  if hd.streamId ≠ 0 then none
  else
    match payload with
    | a :: b :: c :: d :: e :: f :: g :: h :: debugData =>
        some ⟨rdBe [a, b, c, d] % 2147483648, rdBe [e, f, g, h], debugData⟩
    | _ => none

/-- GOAWAY encode — modelled from the spec: kind 7, stream id zero. -/
def goAwayEncode (g : GoAwayF) : List Nat :=
  headEncode (8 + g.debugData.length) 7 0 0 ++ u32be g.lastStreamId ++
    u32be g.errorCode ++ g.debugData

/-- `frame::WindowUpdate` — modelled from the spec §6: a 31-bit
increment (reserved bit masked off on read). -/
structure WindowUpdateF where
  streamId : Nat
  sizeIncrement : Nat
  deriving DecidableEq, Repr

/-- WINDOW_UPDATE decode — modelled from the spec. -/
def windowUpdateLoad (hd : FrameHeadC) (payload : List Nat) :
    Option WindowUpdateF :=
  match payload with
  | [a, b, c, d] => some ⟨hd.streamId, rdBe [a, b, c, d] % 2147483648⟩
  | _ => none

/-- WINDOW_UPDATE encode — modelled from the spec: kind 8, no flags. -/
def windowUpdateEncode (w : WindowUpdateF) : List Nat :=
  headEncode 4 8 0 w.streamId ++ u32be w.sizeIncrement

/-- `frame::Settings` — modelled from the spec §6: the ACK flag and the
negotiated (identifier, value) entries in encode order. -/
structure SettingsF where
  ack : Bool
  entries : List (Nat × Nat)
  deriving DecidableEq, Repr

/-- SETTINGS payload decode (6-byte entries) — modelled from the
spec. -/
def settingsEntries : List Nat → Option (List (Nat × Nat))
  | [] => some []
  | a :: b :: c :: d :: e :: f :: rest =>
      match settingsEntries rest with
      | some l => some ((rdBe [a, b], rdBe [c, d, e, f]) :: l)
      | none => none
  | _ => none

/-- SETTINGS decode — modelled from the spec: connection frame (stream
id zero), ACK is flag bit 0. -/
def settingsLoad (hd : FrameHeadC) (payload : List Nat) :
    Option SettingsF :=
  if hd.streamId ≠ 0 then none
  else
    match settingsEntries payload with
    | some l => some ⟨hd.flag &&& 1 ≠ 0, l⟩
    | none => none

/-- SETTINGS payload encode — modelled from the spec. -/
def settingsPayload (l : List (Nat × Nat)) : List Nat :=
  l.foldr (fun e acc => u16be e.1 ++ u32be e.2 ++ acc) []

/-- SETTINGS encode — modelled from the spec: kind 4, stream id zero. -/
def settingsEncode (s : SettingsF) : List Nat :=
  headEncode (settingsPayload s.entries).length 4 (if s.ack then 1 else 0)
    0 ++ settingsPayload s.entries

/-- `StreamDependency::load` — modelled from the spec (frame/priority.rs
is not under src/): 1-bit exclusive flag, 31-bit dependency id, weight
byte. -/
def streamDepLoad (b : List Nat) : Option StreamDep :=
  match b with
  | [a, b2, c, d, w] =>
      some ⟨rdBe [a, b2, c, d] % 2147483648, w, a &&& 128 == 128⟩
  | _ => none

/-- `frame::Priority` — modelled from the spec: a stream dependency for
a given stream. -/
structure PriorityF where
  streamId : Nat
  dependency : StreamDep
  deriving DecidableEq, Repr

/-- PRIORITY decode — modelled from the spec (the fields are parsed on
the read side even though the write side never emits them). -/
def priorityLoad (hd : FrameHeadC) (payload : List Nat) :
    Option PriorityF :=
  match streamDepLoad payload with
  | some dep => some ⟨hd.streamId, dep⟩
  | none => none

/-- Length-prefixed byte string (block coder serialization, modelled
from the spec). -/
def encStr (l : List Nat) : List Nat := u32be l.length ++ l

/-- Inverse of [[encStr]]. -/
def parseStr (buf : List Nat) : Option (List Nat × List Nat) :=
  match buf with
  | a :: b :: c :: d :: rest =>
      let n := rdBe [a, b, c, d]
      if n ≤ rest.length then some (rest.take n, rest.drop n) else none
  | _ => none

/-- Optional byte string: a presence byte then the string. -/
def encOptStr : Option (List Nat) → List Nat
  | none => [0]
  | some l => 1 :: encStr l

/-- Inverse of [[encOptStr]]. -/
def parseOptStr (buf : List Nat) : Option (Option (List Nat) × List Nat) :=
  match buf with
  | 0 :: rest => some (none, rest)
  | 1 :: rest =>
      match parseStr rest with
      | some (l, rest2) => some (some l, rest2)
      | none => none
  | _ => none

/-- Optional 32-bit number: a presence byte then the value. -/
def encOptNat : Option Nat → List Nat
  | none => [0]
  | some n => 1 :: u32be n

/-- Inverse of [[encOptNat]]. -/
def parseOptNat (buf : List Nat) : Option (Option Nat × List Nat) :=
  match buf with
  | 0 :: rest => some (none, rest)
  | 1 :: a :: b :: c :: d :: rest => some (some (rdBe [a, b, c, d]), rest)
  | _ => none

/-- Serialized header-field list: a 32-bit count then each name and
value as length-prefixed strings. -/
def encFields (l : List HField) : List Nat :=
  u32be l.length ++ l.foldr (fun f acc => encStr f.name ++ encStr f.value ++ acc) []

/-- Parse `n` header fields. -/
def parseFieldsLoop : Nat → List Nat → Option (List HField × List Nat)
  | 0, buf => some ([], buf)
  | n + 1, buf =>
      match parseStr buf with
      | none => none
      | some (name, rest) =>
          match parseStr rest with
          | none => none
          | some (value, rest2) =>
              match parseFieldsLoop n rest2 with
              | none => none
              | some (fs, rest3) => some (⟨name, value⟩ :: fs, rest3)

/-- Inverse of [[encFields]]. -/
def parseFields (buf : List Nat) : Option (List HField × List Nat) :=
  match buf with
  | a :: b :: c :: d :: rest => parseFieldsLoop (rdBe [a, b, c, d]) rest
  | _ => none

/-- The HPACK-coded header block — modelled from the spec: the pseudo
fields in the order `Iter::next` hands them to the encoder (method,
scheme, authority, path, status) followed by the regular fields;
`is_over_size` is a decode-side artifact and is never written. -/
def blockBytes (b : HeaderBlockM) : List Nat :=
  encOptStr b.pseudo.method ++ encOptStr b.pseudo.scheme ++
    encOptStr b.pseudo.authority ++ encOptStr b.pseudo.path ++
    encOptNat b.pseudo.status ++ encFields b.fields

/-- Inverse of [[blockBytes]] (a freshly decoded block is never
over-size below the list-size limit). -/
def blockParse (buf : List Nat) : Option (HeaderBlockM × List Nat) :=
  match parseOptStr buf with
  | none => none
  | some (method, r1) =>
      match parseOptStr r1 with
      | none => none
      | some (scheme, r2) =>
          match parseOptStr r2 with
          | none => none
          | some (authority, r3) =>
              match parseOptStr r3 with
              | none => none
              | some (path, r4) =>
                  match parseOptNat r4 with
                  | none => none
                  | some (status, r5) =>
                      match parseFields r5 with
                      | none => none
                      | some (fields, r6) =>
                          some (⟨fields, false,
                            ⟨method, scheme, authority, path, status⟩⟩, r6)

/-- `Headers::load` composed with `Headers::load_hpack`
(codec/framed_read.rs is not under src/; the composition is modelled
from the spec §4.1): raw flag byte, optional padding strip, optional
priority block (rejecting a self-dependency), then the header block. -/
def headersLoad (hd : FrameHeadC) (src0 : List Nat) : Option MHeaders :=
  let flags := hd.flag
  let padStep : Option (Nat × List Nat) :=
    if flags &&& 8 = 8 then
      match src0 with
      | [] => none
      | p :: rest => some (p, rest)
    else some (0, src0)
  match padStep with
  | none => none
  | some (pad, src1) =>
      let depStep : Option (Option StreamDep × List Nat) :=
        if flags &&& 32 = 32 then
          if src1.length < 5 then none
          else
            match streamDepLoad (src1.take 5) with
            | none => none
            | some dep =>
                if dep.dependencyId = hd.streamId then none
                else some (some dep, src1.drop 5)
        else some (none, src1)
      match depStep with
      | none => none
      | some (dep, src2) =>
          let trimStep : Option (List Nat) :=
            if 0 < pad then
              if src2.length < pad then none
              else some (src2.take (src2.length - pad))
            else some src2
          match trimStep with
          | none => none
          | some src3 =>
              match blockParse src3 with
              | some (block, []) => some ⟨hd.streamId, dep, block, flags⟩
              | _ => none

/-- `Headers::encode` (headers.rs): the head (kind 1, raw flag byte)
with the block length patched in, followed by the coded block; the
priority block is never written. -/
def headersEncode (h : MHeaders) : List Nat :=
  headEncode (blockBytes h.headerBlock).length 1 h.flags h.streamId ++
    blockBytes h.headerBlock

/-- `frame::PushPromise` (headers.rs). -/
structure PushPromiseC where
  streamId : Nat
  promisedId : Nat
  headerBlock : HeaderBlockM
  flags : Nat
  deriving DecidableEq, Repr

/-- `PushPromise::load` composed with its `load_hpack` (framed_read is
modelled from the spec): raw flag byte, optional padding, the 4-byte
promised id (reserved bit masked), then the header block. -/
def pushPromiseLoad (hd : FrameHeadC) (src0 : List Nat) :
    Option PushPromiseC :=
  let flags := hd.flag
  let padStep : Option (Nat × List Nat) :=
    if flags &&& 8 = 8 then
      match src0 with
      | [] => none
      | p :: rest => some (p, rest)
    else some (0, src0)
  match padStep with
  | none => none
  | some (pad, src1) =>
      match src1 with
      | a :: b :: c :: d :: src2 =>
          let promisedId := rdBe [a, b, c, d] % 2147483648
          let trimStep : Option (List Nat) :=
            if 0 < pad then
              if src2.length < pad then none
              else some (src2.take (src2.length - pad))
            else some src2
          match trimStep with
          | none => none
          | some src3 =>
              match blockParse src3 with
              | some (block, []) =>
                  some ⟨hd.streamId, promisedId, block, flags⟩
              | _ => none
      | _ => none

/-- `PushPromise::encode` (headers.rs): head (kind 5, raw flag byte),
the promised id, then the coded block. -/
def pushPromiseEncode (p : PushPromiseC) : List Nat :=
  headEncode (4 + (blockBytes p.headerBlock).length) 5 p.flags p.streamId ++
    u32be p.promisedId ++ blockBytes p.headerBlock

/-- `enum Frame` (frame/mod.rs): the nine typed frame kinds. -/
inductive FrameC where
  | data (d : DataF)
  | headersF (h : MHeaders)
  | priority (p : PriorityF)
  | reset (r : ResetF)
  | settings (s : SettingsF)
  | pushPromise (p : PushPromiseC)
  | ping (p : PingF)
  | goAway (g : GoAwayF)
  | windowUpdate (w : WindowUpdateF)
  deriving DecidableEq, Repr

/-- The outcome of `FramedWrite::buffer` (framed_write.rs) for one
frame: the bytes appended to the write buffer, the `PayloadTooBig`
user error, or the `unimplemented!()` panic. -/
inductive EncodeOut where
  | ok (bytes : List Nat)
  | payloadTooBig
  | panicked
  deriving DecidableEq, Repr

/-- `FramedWrite::buffer` (framed_write.rs), arm for arm: an oversize
DATA payload is `PayloadTooBig`; both DATA paths (chained and copied)
put the same head and payload bytes on the wire; `Frame::Priority(_)`
is `unimplemented!()`. -/
def encodeFrame (maxFrameSize : Nat) : FrameC → EncodeOut
  | .data d =>
      if d.data.length > maxFrameSize then .payloadTooBig
      else .ok (dataEncode d)
  | .headersF h => .ok (headersEncode h)
  | .pushPromise p => .ok (pushPromiseEncode p)
  | .settings s => .ok (settingsEncode s)
  | .goAway g => .ok (goAwayEncode g)
  | .ping p => .ok (pingEncode p)
  | .windowUpdate w => .ok (windowUpdateEncode w)
  | .priority _ => .panicked
  | .reset r => .ok (resetEncode r)

/-- Frame decode — modelled from the spec §4.1 (codec/framed_read.rs is
not under src/): split the 9-byte header off a length-delimited chunk,
check the declared length, dispatch on the type byte to each kind's
load. -/
def decodeFrame (buf : List Nat) : Option FrameC :=
  match headParse buf with
  | none => none
  | some (hd, payload) =>
      if payload.length ≠ hd.length then none
      else
        match hd.kind with
        | 0 => (dataLoad hd payload).map .data
        | 1 => (headersLoad hd payload).map .headersF
        | 2 => (priorityLoad hd payload).map .priority
        | 3 => (resetLoad hd payload).map .reset
        | 4 => (settingsLoad hd payload).map .settings
        | 5 => (pushPromiseLoad hd payload).map .pushPromise
        | 6 => (pingLoad hd payload).map .ping
        | 7 => (goAwayLoad hd payload).map .goAway
        | 8 => (windowUpdateLoad hd payload).map .windowUpdate
        | _ => none

/-- A byte string short enough for its length prefix. -/
def strOk (l : List Nat) : Bool := decide (l.length < 4294967296)

/-- Structural validity of a header block for the wire. -/
def blockOk (b : HeaderBlockM) : Bool :=
  !b.isOverSize &&
    (match b.pseudo.method with | none => true | some l => strOk l) &&
    (match b.pseudo.scheme with | none => true | some l => strOk l) &&
    (match b.pseudo.authority with | none => true | some l => strOk l) &&
    (match b.pseudo.path with | none => true | some l => strOk l) &&
    (match b.pseudo.status with
      | none => true
      | some n => decide (n < 4294967296)) &&
    decide (b.fields.length < 4294967296) &&
    b.fields.all (fun f => strOk f.name && strOk f.value)

/-- Structural validity of a frame (spec §8: valid ids and lengths for
the 9-byte header, and no padding — padding is write-only). -/
def frameOk (maxFrameSize : Nat) : FrameC → Bool
  | .data d =>
      d.streamId != 0 && decide (d.streamId < 2147483648) &&
        (d.flags &&& 9 == d.flags) && (d.flags &&& 8 == 0) &&
        d.padLen.isNone && decide (d.data.length ≤ maxFrameSize) &&
        decide (d.data.length < 16777216)
  | .headersF h =>
      decide (h.streamId < 2147483648) && decide (h.flags < 256) &&
        (h.flags &&& 4 == 4) && (h.flags &&& 8 == 0) &&
        (h.flags &&& 32 == 0) && h.streamDep.isNone &&
        blockOk h.headerBlock &&
        decide ((blockBytes h.headerBlock).length < 16777216)
  | .priority p =>
      decide (p.streamId < 2147483648) &&
        decide (p.dependency.dependencyId < 2147483648) &&
        decide (p.dependency.weight < 256)
  | .reset r =>
      decide (r.streamId < 2147483648) && decide (r.errorCode < 4294967296)
  | .settings s =>
      s.entries.all (fun e => decide (e.1 < 65536) && decide (e.2 < 4294967296)) &&
        decide ((settingsPayload s.entries).length < 16777216)
  | .pushPromise p =>
      decide (p.streamId < 2147483648) && decide (p.promisedId < 2147483648) &&
        decide (p.flags < 256) && (p.flags &&& 4 == 4) &&
        (p.flags &&& 8 == 0) && blockOk p.headerBlock &&
        decide (4 + (blockBytes p.headerBlock).length < 16777216)
  | .ping p => p.payload.length == 8
  | .goAway g =>
      decide (g.lastStreamId < 2147483648) &&
        decide (g.errorCode < 4294967296) &&
        decide (8 + g.debugData.length < 16777216)
  | .windowUpdate w =>
      decide (w.streamId < 2147483648) &&
        decide (w.sizeIncrement < 2147483648)

/-- `Frame::is_priority` style discriminator for the write path. -/
def FrameC.isPriority : FrameC → Bool
  | .priority _ => true
  | _ => false

end Nephele

namespace Nephele

theorem wrap32_eq_of_isI32 (x : Int) (h : isI32 x) : wrap32 x = x := by
  obtain ⟨h1, h2⟩ := h
  unfold wrap32 twoPow31 twoPow32 at *
  omega

theorem isI32_wrap32 (x : Int) : isI32 (wrap32 x) := by
  unfold isI32 wrap32 twoPow31 twoPow32
  constructor
  · have := Int.emod_nonneg (x + 2147483648) (by norm_num : (4294967296 : Int) ≠ 0)
    omega
  · have := Int.emod_lt_of_pos (x + 2147483648) (by norm_num : (0 : Int) < 4294967296)
    omega

/-- Truncating division by two in ediv terms (for `omega`). -/
theorem tdiv32_two_eq (w : Int) :
    tdiv32 w 2 = if 0 ≤ w then w / 2 else -((-w) / 2) := by
  unfold tdiv32
  split
  · exact Int.tdiv_eq_ediv (by omega) (by norm_num)
  · have h2 : Int.tdiv (-w) 2 = (-w) / 2 :=
      Int.tdiv_eq_ediv (by omega) (by norm_num)
    rw [← h2, Int.neg_tdiv]
    ring_nf

/-- The wrapped value is congruent mod `2^32`; reading it back as a u32
recovers any representative in `[0, 2^32)`. -/
theorem i32ToU32_wrap32 (d : Int) (h0 : 0 ≤ d) (h1 : d < twoPow32) :
    (i32ToU32 (wrap32 d) : Int) = d := by
  unfold i32ToU32 wrap32 twoPow31 twoPow32 at *
  omega

theorem wrap32_cases (d : Int) (h0 : 0 ≤ d) (h1 : d < twoPow32) :
    wrap32 d = d ∨ wrap32 d = d - twoPow32 := by
  unfold wrap32 twoPow31 twoPow32 at *
  omega

theorem isClosed_iff (s : StState) :
    s.isClosed = true ↔ ∃ c, s = StState.closed c := by
  cases s <;> simp [StState.isClosed]

theorem closed_after_closed (c : Cause) (e : StEvent) :
    ((StState.closed c).after e).isClosed = true := by
  cases e with
  | recvReset reason queued =>
      cases queued <;>
        simp [StState.after, StState.step, StState.recvReset, StState.isClosed]
  | recvErr err =>
      cases err <;>
        simp [StState.after, StState.step, StState.recvErr, StState.isClosed]
  | _ =>
      simp [StState.after, StState.step, StState.sendOpen, StState.recvOpen,
        StState.reserveLocal, StState.reserveRemote, StState.recvClose,
        StState.sendClose, StState.recvEof, StState.setReset,
        StState.setScheduledReset, StState.isClosed]

theorem run_closed_closed (c : Cause) (es : List StEvent) :
    ((StState.closed c).run es).isClosed = true := by
  induction es generalizing c with
  | nil => simp [StState.run, StState.isClosed]
  | cons e es ih =>
      have h := closed_after_closed c e
      rw [isClosed_iff] at h
      obtain ⟨c', hc'⟩ := h
      simpa [StState.run, hc'] using ih c'

/-- C1.  Closed is terminal for the stream state machine: after any
sequence of state-machine operations starting from `Closed(c)` the state
is still `Closed`; a single operation on a `Closed` state either moves to
a `Closed` state (possibly with a different `Cause`), fails with a
`UserError`/`RecvError` leaving the state untouched, or panics — and the
only operation that can panic on a `Closed` state is `send_close`.  In
particular no sequence of operations moves a `Closed` stream back to
`Open`. -/
theorem claim_C1 :
    (∀ (c : Cause) (es : List StEvent),
      ((StState.closed c).run es).isClosed = true) ∧
    (∀ (c : Cause) (e : StEvent),
      match (StState.closed c).step e with
      | .next s' => s'.isClosed = true
      | .userErr _ => True
      | .recvErr _ => True
      | .panicked => e = .sendClose) := by
  refine ⟨run_closed_closed, ?_⟩
  intro c e
  cases e with
  | recvReset reason queued =>
      cases queued <;> simp [StState.step, StState.recvReset, StState.isClosed]
  | recvErr err =>
      cases err <;> simp [StState.step, StState.recvErr, StState.isClosed]
  | _ =>
      simp [StState.step, StState.sendOpen, StState.recvOpen,
        StState.reserveLocal, StState.reserveRemote, StState.recvClose,
        StState.sendClose, StState.recvEof, StState.setReset,
        StState.setScheduledReset, StState.isClosed]

/-- C3 counterexample: at `window_size = 0` and `sz = 2^31` the claim
fails: `0 + 2^31` exceeds `MAX_WINDOW_SIZE`, yet `inc_window` returns
`Ok` — the `sz as i32` cast wraps `2^31` to `-2^31` before the
`overflowing_add`, leaving `window_size = -2^31` instead of rejecting the
update (and `window_size` did not increase by `sz` either). -/
theorem claim_C3_counterexample :
    ¬ incWindowClaimAt ⟨0, 0⟩ 2147483648 ∧
    FlowControl.incWindow ⟨0, 0⟩ 2147483648 = Except.ok ⟨-2147483648, 0⟩ :=
  ⟨by decide, by decide⟩

/-- C3 (amended): the claim as stated, for every increment representable
as a non-negative i32 (`sz ≤ 2^31-1`; every increment a WINDOW_UPDATE
frame or SETTINGS change can deliver is 31-bit).  For `sz ≥ 2^31` the
`sz as i32` cast wraps and the claim fails. -/
theorem claim_C3 (fc : FlowControl) (sz : Nat)
    (hw : isI32 fc.window_size) (hsz : sz ≤ MAX_WINDOW_SIZE) :
    incWindowClaimAt fc sz := by
  obtain ⟨hw1, hw2⟩ := hw
  unfold twoPow31 at hw1 hw2
  unfold MAX_WINDOW_SIZE at hsz
  have hszI : u32ToI32 sz = (sz : Int) := by
    apply wrap32_eq_of_isI32
    unfold isI32 twoPow31
    omega
  unfold incWindowClaimAt
  simp only [FlowControl.incWindow, hszI, MAX_WINDOW_SIZE]
  by_cases hgt : fc.window_size + (sz : Int) > ((2147483647 : Nat) : Int)
  · rw [if_pos hgt]
    push_cast at hgt
    have hwrap : wrap32 (fc.window_size + sz) =
        fc.window_size + sz - 4294967296 := by
      unfold wrap32 twoPow31 twoPow32
      omega
    rw [hwrap, if_pos (by omega)]
  · rw [if_neg hgt]
    push_cast at hgt
    have hwrap : wrap32 (fc.window_size + sz) = fc.window_size + sz := by
      apply wrap32_eq_of_isI32
      unfold isI32 twoPow31
      omega
    rw [hwrap, if_neg (by simp), if_neg (by push_cast; omega)]

/-- C3 witness: a concrete in-range application of the amended claim. -/
theorem claim_C3_witness : incWindowClaimAt ⟨65535, 10⟩ 1000 :=
  claim_C3 ⟨65535, 10⟩ 1000 (by decide) (by decide)

/-- C8 counterexample: with `window_size = 4`, `available = 6` the code
returns `Some(2)` although the unclaimed amount `2` does not *exceed*
half the window (`4/2 = 2`): the source tests `unclaimed < threshold`,
so `Some` is already produced when the unclaimed amount equals half the
window. -/
theorem claim_C8_counterexample :
    ¬ unclaimedClaimAt ⟨4, 6⟩ ∧
    FlowControl.unclaimedCapacity ⟨4, 6⟩ = some 2 := by
  constructor
  · intro h
    have h2 := (h.1 2 (by decide)).2.2
    revert h2
    decide
  · decide

/-- C8 (amended): same statement with "exceeds half" weakened to "is at
least half" (`≥ window_size/2` with i32 division truncating toward
zero) — exactly the source's `unclaimed < threshold → None` test.  The
returned `n` is the exact unclaimed amount even when the internal i32
subtraction wraps (the wrap cancels against the `as u32` cast). -/
theorem claim_C8 (fc : FlowControl)
    (hw : isI32 fc.window_size) (ha : isI32 fc.available) :
    (∀ n, fc.unclaimedCapacity = some n →
      (n : Int) = fc.available - fc.window_size ∧
      fc.window_size < fc.available ∧
      (n : Int) ≥ tdiv32 fc.window_size 2) ∧
    (¬ (fc.window_size < fc.available ∧
        fc.available - fc.window_size ≥ tdiv32 fc.window_size 2) →
      fc.unclaimedCapacity = none) := by
  obtain ⟨hw1, hw2⟩ := hw
  obtain ⟨ha1, ha2⟩ := ha
  unfold twoPow31 at hw1 hw2 ha1 ha2
  have htb : -1073741824 ≤ tdiv32 fc.window_size 2 ∧
      tdiv32 fc.window_size 2 ≤ 1073741823 := by
    rw [tdiv32_two_eq]
    split <;> omega
  constructor
  · intro n hn
    simp only [FlowControl.unclaimedCapacity, UNCLAIMED_NUMERATOR,
      UNCLAIMED_DENOMINATOR, mul_one] at hn
    by_cases hge : fc.window_size ≥ fc.available
    · rw [if_pos hge] at hn
      exact absurd hn (by simp)
    · rw [if_neg hge] at hn
      by_cases hlt : wrap32 (fc.available - fc.window_size) <
          tdiv32 fc.window_size 2
      · rw [if_pos hlt] at hn
        exact absurd hn (by simp)
      · rw [if_neg hlt] at hn
        injection hn with hn
        have hd0 : (0 : Int) ≤ fc.available - fc.window_size := by omega
        have hd1 : fc.available - fc.window_size < twoPow32 := by
          unfold twoPow32
          omega
        have hnv : (n : Int) = fc.available - fc.window_size := by
          rw [← hn]
          exact i32ToU32_wrap32 _ hd0 hd1
        refine ⟨hnv, by omega, ?_⟩
        rcases wrap32_cases _ hd0 hd1 with hc | hc
        · rw [hc] at hlt
          omega
        · rw [hc] at hlt
          unfold twoPow32 at hc hlt
          omega
  · intro hnot
    simp only [FlowControl.unclaimedCapacity, UNCLAIMED_NUMERATOR,
      UNCLAIMED_DENOMINATOR, mul_one]
    by_cases hge : fc.window_size ≥ fc.available
    · rw [if_pos hge]
    · rw [if_neg hge]
      have hdlt : fc.available - fc.window_size < tdiv32 fc.window_size 2 := by
        rcases not_and_or.mp hnot with h | h
        · omega
        · omega
      have hwrap : wrap32 (fc.available - fc.window_size) =
          fc.available - fc.window_size := by
        apply wrap32_eq_of_isI32
        unfold isI32 twoPow31
        omega
      rw [hwrap, if_pos hdlt]

/-- C8 witness: a concrete application of the amended claim, in the
`Some` regime (`window = 4`, `available = 6`, unclaimed `2 ≥ 4/2`). -/
theorem claim_C8_witness :
    (2 : Int) = (6 : Int) - 4 ∧ (4 : Int) < 6 ∧
    (2 : Int) ≥ tdiv32 4 2 :=
  (claim_C8 ⟨4, 6⟩ (by decide) (by decide)).1 2 (by decide)

/-- C9.  The public accessor clamps: it reports the internal signed
window when that is non-negative and `0` when it is negative — i.e. it
always equals `max window_size 0`, never a negative or wrapped value. -/
theorem claim_C9 (fc : FlowControl) :
    (fc.windowSizePub : Int) = max fc.window_size 0 := by
  unfold FlowControl.windowSizePub Window.asSize
  rcases le_or_lt 0 fc.window_size with h | h
  · rw [if_neg (by omega), max_eq_left h]
    omega
  · rw [if_pos h, max_eq_right (by omega)]
    simp

/-- C10.  If the stream's state already satisfies `is_reset()` (`Closed`
with a cause other than `EndStream`), `send_reset` returns immediately:
the stream (state, pending-send deque, flow, flags) is written back
unchanged, the prioritizer queues and connection flow are untouched, and
no RST_STREAM frame is queued. -/
theorem claim_C10 (reason : Reason) (p : MPrioritize) (c : MCounts)
    (store : MStore) (s : MStream) (h : s.state.isReset = true) :
    sendReset reason p c store s = some (p, c, storeUpdate store s.id s) := by
  unfold sendReset
  rw [if_pos h]

/-- C10 witness: a stream already reset with `Cause::LocallyReset`. -/
theorem claim_C10_witness :
    sendReset Reason.cancel
      ⟨[], [], [], ⟨100, 100⟩, 0, .nothing⟩
      ⟨true, 10, 0, 10, 1, 10, 0⟩
      [(1, ⟨1, .closed (.locallyReset .cancel), true, 1, false, ⟨5, 5⟩, 0, 0,
        [.resetF .cancel], false, false, false, false, false, ⟨0, 0⟩, 0,
        false, false, [], .omitted⟩)]
      ⟨1, .closed (.locallyReset .cancel), true, 1, false, ⟨5, 5⟩, 0, 0,
        [.resetF .cancel], false, false, false, false, false, ⟨0, 0⟩, 0,
        false, false, [], .omitted⟩ =
    some (⟨[], [], [], ⟨100, 100⟩, 0, .nothing⟩, ⟨true, 10, 0, 10, 1, 10, 0⟩,
      [(1, ⟨1, .closed (.locallyReset .cancel), true, 1, false, ⟨5, 5⟩, 0, 0,
        [.resetF .cancel], false, false, false, false, false, ⟨0, 0⟩, 0,
        false, false, [], .omitted⟩)]) :=
  claim_C10 Reason.cancel _ _ _ _ (by decide)

/-- C2.  When `pop_frame` pops stream `k` from the head of the shared
pending-send queue and the front of that stream's own deque is a DATA
frame of size `sz`:

* if `sz > 0` and the stream's available send window is zero, the frame
  is pushed back onto the front of that stream's own deque (which is
  therefore unchanged), the stream is left out of the shared round-robin
  queue (its `is_pending_send` flag is cleared and the scheduler's queue
  is now `rest`), and the scheduler continues with the next pending
  stream;
* otherwise (given the release-mode flow-control assertions hold and the
  stream is not closed) a DATA frame for `k` is emitted whose length is
  exactly `min(sz, max_frame_size, available send window)`. -/
theorem claim_C2 (p : MPrioritize) (c : MCounts) (store : MStore)
    (maxLen k sz : Nat) (rest : List Nat) (s : MStream) (eos : Bool)
    (restF : List SFrame)
    (hq : p.pendingSend = k :: rest)
    (hfind : storeFind store k = some s)
    (hfront : s.pendingSend = SFrame.dataF sz eos :: restF) :
    (0 < sz → s.sendFlow.available = 0 →
      popFrame p c store maxLen =
        popFrameLoop rest { p with pendingSend := rest } c
          (storeUpdate store k { s with isPendingSend := false }) maxLen) ∧
    (¬ (0 < sz ∧ s.sendFlow.available = 0) →
      Window.sizeLe (min (min sz maxLen) (Window.asSize s.sendFlow.available))
          s.sendFlow.window_size = true →
      Window.sizeLe (min (min sz maxLen) (Window.asSize s.sendFlow.available))
          p.flow.window_size = true →
      s.state.isClosed = false →
      ∃ p' store' fEos,
        popFrame p c store maxLen =
          some (some (PoppedFrame.dataP k
              (min (min sz maxLen) (Window.asSize s.sendFlow.available))
              fEos eos),
            p', c, store')) := by
  constructor
  · intro hsz havail
    have hcond : (decide (sz > 0) && Window.eqSize s.sendFlow.available 0) = true := by
      rw [havail]
      simp [Window.eqSize]
      omega
    unfold popFrame
    rw [hq, popFrameLoop, hfind]
    simp only [hfront, hcond, if_true]
  · intro hnot h1 h2 hclosed
    have hcond : (decide (sz > 0) && Window.eqSize s.sendFlow.available 0) = false := by
      rcases Classical.em (0 < sz) with hp | hp
      · have : ¬ s.sendFlow.available = 0 := fun hav => hnot ⟨hp, hav⟩
        simp [Window.eqSize]
        intro h0
        omega
      · simp [Window.eqSize]
        omega
    unfold popFrame
    rw [hq, popFrameLoop, hfind]
    simp only [hfront, hcond, Bool.false_eq_true, if_false, FlowControl.sendData,
      FlowControl.assignCapacity, h1, h2, eq_self_iff_true, if_true,
      Option.bind_eq_bind, Option.some_bind]
    rcases hre : (!restF.isEmpty || s.state.isScheduledReset) with _ | _
    · simp only [hre, Bool.false_eq_true, if_false]
      simp [transitionAfter, MStream.isClosedS, MStream.isReleased,
        MStream.isPendingResetExpiration, hclosed]
    · simp only [hre, if_true]
      simp only [pushSendQ, Bool.false_eq_true, if_false]
      simp [transitionAfter, MStream.isClosedS, MStream.isReleased,
        MStream.isPendingResetExpiration, hclosed]

/-- C2 witness: in the concrete scenario the blocked stream is skipped —
its DATA frame goes back to the front of its own deque, it leaves the
round-robin queue, and the scheduler moves on (here: to an empty
queue). -/
theorem claim_C2_witness :
    popFrame c2Prioritize c2Counts c2Store 16384 =
      popFrameLoop [] { c2Prioritize with pendingSend := [] } c2Counts
        (storeUpdate c2Store 1 { c2Stream with isPendingSend := false })
        16384 :=
  (claim_C2 c2Prioritize c2Counts c2Store 16384 1 5 [] c2Stream true []
    rfl rfl rfl).1 (by decide) rfl

theorem storeFind_update_self (store : MStore) (k : Nat) (s : MStream)
    (h : (storeFind store k).isSome = true) :
    storeFind (storeUpdate store k s) k = some s := by
  induction store with
  | nil => simp [storeFind] at h
  | cons e rest ih =>
      obtain ⟨k', s'⟩ := e
      by_cases hk : k' = k
      · subst hk
        simp [storeFind, storeUpdate]
      · simp only [storeFind, storeUpdate, if_neg hk] at h ⊢
        exact ih h

theorem storeUpdate_storeUpdate (store : MStore) (k : Nat) (a b : MStream) :
    storeUpdate (storeUpdate store k a) k b = storeUpdate store k b := by
  induction store with
  | nil => rfl
  | cons e rest ih =>
      obtain ⟨k', s'⟩ := e
      by_cases hk : k' = k
      · subst hk
        simp [storeUpdate]
      · simp only [storeUpdate, if_neg hk]
        rw [ih]

/-- C4 counterexample: if the oversize initial HEADERS frame itself
carries END_STREAM, sending the synthesized 431 (whose END_STREAM closes
the local side too) fully closes the stream, so
`schedule_implicit_reset` returns at its `is_closed` guard and the
stream is never scheduled for a REFUSED_STREAM reset — its terminal
cause is `EndStream`.  Everything else the claim promises still
happens. -/
theorem claim_C4_counterexample :
    ¬ c4ClaimAt c4Recv c4Prioritize c4Counts c4Store 1 c4FrameEos := by
  intro h
  obtain ⟨r', p', c', store', s', heq, hfind, hps, hsched⟩ := h
  have h1 : (streamsRecvHeadersCore c4Recv c4Prioritize c4Counts c4Store 1
        c4FrameEos).map
      (fun res => (storeFind res.2.2.2.2 1).map (fun s => s.state)) =
      some (some (StState.closed Cause.endStream)) := rfl
  rw [heq] at h1
  simp only [Option.map_some'] at h1
  rw [hfind] at h1
  simp only [Option.map_some', Option.some.injEq] at h1
  rw [h1] at hsched
  simp [StState.getScheduledReset] at hsched

theorem checkHeaders_nil : checkHeaders [] = .ok () := rfl

theorem new431_isEndStream (id : Nat) :
    ((MHeaders.new id (PseudoM.response 431) []).setEndStream).isEndStream = true := by
  simp [MHeaders.isEndStream, MHeaders.setEndStream, MHeaders.new,
    H_END_HEADERS, H_END_STREAM]

theorem new431_fields (id : Nat) :
    ((MHeaders.new id (PseudoM.response 431) []).setEndStream).fields = [] := rfl

theorem new431_tooBig (id : Nat) :
    ((MHeaders.new id (PseudoM.response 431) []).setEndStream).hasTooBigField = false := by
  simp [MHeaders.hasTooBigField, HeaderBlockM.hasTooBigField,
    MHeaders.setEndStream, MHeaders.new, pseudoSize, PseudoM.response,
    MAX_HEADER_LENGTH]

theorem new431_streamId (id : Nat) :
    ((MHeaders.new id (PseudoM.response 431) []).setEndStream).streamId = id := rfl

theorem natBeq_one_zero : ((1 : Nat) == 0) = false := rfl

theorem boolBeq_true_false : (true == false) = false := rfl

/-- C4 (amended).  Server role, initial oversize HEADERS on a freshly
inserted stream (`Stream::new`, flows arbitrary): no connection-level
error is raised, the synthesized 431 response with END_STREAM is queued
on that stream and the stream is scheduled on the shared send queue; the
stream is scheduled for an implicit reset with reason REFUSED_STREAM
when the oversize HEADERS did not itself carry END_STREAM — if it did,
the 431 (END_STREAM) closes the stream outright (`Cause::EndStream`)
and `schedule_implicit_reset` is a no-op. -/
theorem claim_C4 (r : MRecv) (p : MPrioritize) (c : MCounts) (store : MStore)
    (k : Nat) (frame : MHeaders) (s0 : MStream)
    (hserver : c.isServer = true)
    (hodd : k % 2 = 1)
    (hfind : storeFind store k = some s0)
    (hid : s0.id = k) (hstate : s0.state = .idle)
    (hcounted : s0.isCounted = false)
    (hqflag : s0.isPendingSend = false)
    (hreq : s0.requestedSendCapacity = 0) (hbuf : s0.bufferedSendData = 0)
    (hdeque : s0.pendingSend = [])
    (hopen : s0.isPendingOpen = false) (hpush : s0.isPendingPush = false)
    (hreset : s0.resetAt = false)
    (hcl0 : s0.contentLength = .omitted)
    (hfid : frame.streamId = k)
    (hover : frame.isOverSize = true)
    (hclh : fieldsGet frame.fields (str2b "content-length") = none)
    (hcanRecv : c.maxRecv > c.numRecv)
    (hcanReset : c.maxReset > c.numReset) :
    ∃ r' p' c' store' s',
      streamsRecvHeadersCore r p c store k frame =
        some (Except.ok (), r', p', c', store') ∧
      storeFind store' k = some s' ∧
      s'.pendingSend = [SFrame.headersF (resp431 k)] ∧
      p'.pendingSend = p.pendingSend ++ [k] ∧
      (frame.isEndStream = false →
        s'.state = .closed (.scheduled .refusedStream)) ∧
      (frame.isEndStream = true → s'.state = .closed .endStream) := by
  rcases hes : frame.isEndStream with _ | _ <;>
  · simp only [streamsRecvHeadersCore, recvRecvHeaders, sendHeaders,
      checkHeaders_nil, new431_isEndStream, new431_fields, new431_tooBig,
      new431_streamId, natBeq_one_zero, boolBeq_true_false,
      StState.isLocalReset, StState.isRecvHeaders, StState.recvOpen,
      StState.sendOpen, StState.isClosed, StState.setScheduledReset,
      MCounts.canIncNumRecvStreams, MCounts.incNumRecvStreams,
      MCounts.isLocalInit, MCounts.canIncNumResetStreams,
      MCounts.incNumResetStreams, ContentLengthM.isHead, queueFrame,
      scheduleSend, pushSendQ, pushOpenQ, pushAcceptQ, pushResetExpireQ,
      MStream.isSendReady, MStream.isPendingResetExpiration,
      scheduleImplicitReset, reclaimReservedCapacity,
      enqueueResetExpiration, resetOnRecvStreamErr, transitionAfter,
      MStream.isClosedS, MStream.isReleased, MStream.unlink,
      storeFind_update_self, hfind, hserver, hodd, hover, hclh, hfid,
      hes, hcanRecv, hcanReset, hid, hstate, hcounted, hqflag, hreq,
      hbuf, hdeque, hopen, hpush, hreset, hcl0,
      Option.some_bind, Option.bind_eq_bind, decide_eq_true_eq,
      gt_iff_lt, Bool.false_eq_true, if_false, if_true, decide_True,
      Bool.not_false, Bool.and_true, Bool.true_and, Bool.not_true,
      Bool.false_and, Bool.and_false, Bool.or_false, Bool.false_or,
      Bool.not_eq_true, ne_eq, not_false_eq_true, not_true_eq_false,
      List.isEmpty_cons, List.isEmpty_nil, List.append_nil,
      List.nil_append, lt_self_iff_false, Nat.sub_self,
      Option.isSome_some, storeUpdate_storeUpdate]
    refine ⟨_, _, _, _, _, rfl,
      storeFind_update_self store k _ (by rw [hfind]; rfl), rfl, rfl,
      ?_, ?_⟩ <;> intro h
    all_goals first | rfl | simp at h

/-- C4 witness: the amended claim applied to the concrete no-END_STREAM
scenario. -/
theorem claim_C4_witness :
    ∃ r' p' c' store' s',
      streamsRecvHeadersCore c4Recv c4Prioritize c4Counts c4Store 1
          c4FrameNoEos =
        some (Except.ok (), r', p', c', store') ∧
      storeFind store' 1 = some s' ∧
      s'.pendingSend = [SFrame.headersF (resp431 1)] ∧
      p'.pendingSend = c4Prioritize.pendingSend ++ [1] ∧
      (c4FrameNoEos.isEndStream = false →
        s'.state = .closed (.scheduled .refusedStream)) ∧
      (c4FrameNoEos.isEndStream = true → s'.state = .closed .endStream) :=
  claim_C4 c4Recv c4Prioritize c4Counts c4Store 1 c4FrameNoEos c4Stream
    rfl rfl rfl rfl rfl rfl rfl rfl rfl rfl rfl rfl rfl rfl rfl rfl rfl
    (by decide) (by decide)

/-- C7.  The preface check is broken for partial reads: the source
compares the length-`n` slice `PREFACE[pos..pos+n]` against the entire
24-byte buffer, so any delivery of the (correct!) preface split across
more than one read fails with PROTOCOL_ERROR; only a single 24-byte
read of the exact preface is accepted.  The theorem evaluates the code
at the failing input — the exact preface delivered as 12 + 12 bytes —
and records the surrounding behaviour (exact single read accepted,
empty read reported as UnexpectedEof). -/
theorem claim_C7 :
    PREFACE.take 12 ++ PREFACE.drop 12 = PREFACE ∧
    readPreface [PREFACE.take 12, PREFACE.drop 12] =
      PrefaceOutcome.protocolError ∧
    readPreface [PREFACE] = PrefaceOutcome.accepted ∧
    readPreface [[]] = PrefaceOutcome.eofError ∧
    readPreface [] = PrefaceOutcome.pending := by
  decide

theorem decodeIntLoop_consumes (buf : List Nat) (ret bytes shift v : Nat)
    (rest : List Nat)
    (h : decodeIntLoop buf ret bytes shift = .ok (v, rest)) :
    rest.length < buf.length := by
  induction buf generalizing ret bytes shift v rest with
  | nil => simp [decodeIntLoop] at h
  | cons b tl ih =>
      simp only [decodeIntLoop] at h
      by_cases h1 : b &&& 0x80 = 0
      · rw [if_pos h1] at h
        injection h with h
        injection h with h1' h2'
        subst h2'
        simp
      · rw [if_neg h1] at h
        by_cases h2 : bytes + 1 = 5
        · rw [if_pos h2] at h
          exact absurd h (by simp)
        · rw [if_neg h2] at h
          have := ih _ _ _ _ _ h
          simp
          omega

theorem decodeInt_consumes (buf : List Nat) (p v : Nat) (rest : List Nat)
    (h : decodeInt buf p = .ok (v, rest)) : rest.length < buf.length := by
  unfold decodeInt at h
  by_cases hp : p < 1 || p > 8
  · rw [if_pos hp] at h
    exact absurd h (by simp)
  · rw [if_neg hp] at h
    match buf with
    | [] => exact absurd h (by simp)
    | b :: tl =>
        simp only at h
        by_cases hm : (b &&& (if p = 8 then 0xFF else (1 <<< p) - 1)) <
            (if p = 8 then 0xFF else (1 <<< p) - 1)
        · rw [if_pos hm] at h
          injection h with h
          injection h with h1' h2'
          subst h2'
          simp
        · rw [if_neg hm] at h
          have := decodeIntLoop_consumes _ _ _ _ _ _ h
          simp
          omega

theorem decodeString_consumes (buf : List Nat) (s rest : List Nat)
    (h : decodeString buf = .ok (s, rest)) : rest.length < buf.length := by
  unfold decodeString at h
  match buf with
  | [] => exact absurd h (by simp)
  | hdr :: tl =>
      simp only at h
      match hInt : decodeInt (hdr :: tl) 7 with
      | .error e => rw [hInt] at h; exact absurd h (by simp)
      | .ok (len, rest1) =>
          rw [hInt] at h
          have hlt := decodeInt_consumes _ _ _ _ hInt
          simp only at h
          by_cases hlen : len > rest1.length
          · rw [if_pos hlen] at h
            exact absurd h (by simp)
          · rw [if_neg hlen] at h
            by_cases hhuf : hdr &&& 0x80 = 0x80
            · rw [if_pos hhuf] at h
              simp only [huffmanDecode] at h
              injection h with h
              injection h with h1' h2'
              subst h2'
              have : (rest1.drop len).length ≤ rest1.length := by simp
              omega
            · rw [if_neg hhuf] at h
              injection h with h
              injection h with h1' h2'
              subst h2'
              have : (rest1.drop len).length ≤ rest1.length := by simp
              omega

theorem decodeIndexed_consumes (t : TableM) (buf : List Nat) (e : HeaderH)
    (rest : List Nat) (h : decodeIndexed t buf = .ok (e, rest)) :
    rest.length < buf.length := by
  simp only [decodeIndexed] at h
  match hInt : decodeInt buf 7 with
  | .error err => simp only [hInt] at h; exact absurd h (by simp)
  | .ok (index, rest1) =>
      simp only [hInt] at h
      have hlt := decodeInt_consumes _ _ _ _ hInt
      match hg : t.get index with
      | .error err => simp only [hg] at h; exact absurd h (by simp)
      | .ok hh =>
          simp only [hg] at h
          injection h with h
          injection h with h1' h2'
          subst h2'
          exact hlt

theorem decodeLiteral_consumes (t : TableM) (buf : List Nat) (ix : Bool)
    (e : HeaderH) (rest : List Nat)
    (h : decodeLiteral t buf ix = .ok (e, rest)) :
    rest.length < buf.length := by
  simp only [decodeLiteral] at h
  match hInt : decodeInt buf (if ix then 6 else 4) with
  | .error err => simp only [hInt] at h; exact absurd h (by simp)
  | .ok (tableIdx, rest1) =>
      simp only [hInt] at h
      have hlt := decodeInt_consumes _ _ _ _ hInt
      by_cases hz : tableIdx = 0
      · rw [if_pos hz] at h
        match hs1 : decodeString rest1 with
        | .error err => simp only [hs1] at h; exact absurd h (by simp)
        | .ok (name, rest2) =>
            simp only [hs1] at h
            have hlt2 := decodeString_consumes _ _ _ hs1
            match hs2 : decodeString rest2 with
            | .error err => simp only [hs2] at h; exact absurd h (by simp)
            | .ok (value, rest3) =>
                simp only [hs2] at h
                have hlt3 := decodeString_consumes _ _ _ hs2
                match hn : headerNew name value with
                | .error err => simp only [hn] at h; exact absurd h (by simp)
                | .ok hh =>
                    simp only [hn] at h
                    injection h with h
                    injection h with h1' h2'
                    subst h2'
                    omega
      · rw [if_neg hz] at h
        match hg : t.get tableIdx with
        | .error err => simp only [hg] at h; exact absurd h (by simp)
        | .ok ent =>
            simp only [hg] at h
            match hs1 : decodeString rest1 with
            | .error err => simp only [hs1] at h; exact absurd h (by simp)
            | .ok (value, rest2) =>
                simp only [hs1] at h
                have hlt2 := decodeString_consumes _ _ _ hs1
                match hie : ent.intoEntry value with
                | .error err => simp only [hie] at h; exact absurd h (by simp)
                | .ok hh =>
                    simp only [hie] at h
                    injection h with h
                    injection h with h1' h2'
                    subst h2'
                    omega

theorem decodeOne_consumes (st : LoopSt) (cr : Bool) (buf : List Nat)
    (st2 : LoopSt) (cr2 : Bool) (eOpt : Option HeaderH) (rest : List Nat)
    (h : decodeOne st cr buf = some (.ok (some (st2, cr2, eOpt, rest)))) :
    rest.length < buf.length := by
  simp only [decodeOne] at h
  match buf with
  | [] => exact absurd h (by simp)
  | ty :: tl =>
      match hr : loadRep ty with
      | .error e => simp only [hr] at h; exact absurd h (by simp)
      | .ok .indexed =>
          simp only [hr] at h
          match hd : decodeIndexed st.table (ty :: tl) with
          | .error e => simp only [hd] at h; exact absurd h (by simp)
          | .ok (entry, rest1) =>
              simp only [hd] at h
              injection h with h
              injection h with h
              injection h with h
              injection h with h1' h
              injection h with h2' h
              injection h with h3' h4'
              subst h4'
              exact decodeIndexed_consumes _ _ _ _ hd
      | .ok .literalWithIndexing =>
          simp only [hr] at h
          match hd : decodeLiteral st.table (ty :: tl) true with
          | .error e => simp only [hd] at h; exact absurd h (by simp)
          | .ok (entry, rest1) =>
              simp only [hd] at h
              injection h with h
              injection h with h
              injection h with h
              injection h with h1' h
              injection h with h2' h
              injection h with h3' h4'
              subst h4'
              exact decodeLiteral_consumes _ _ _ _ _ hd
      | .ok .literalWithoutIndexing =>
          simp only [hr] at h
          match hd : decodeLiteral st.table (ty :: tl) false with
          | .error e => simp only [hd] at h; exact absurd h (by simp)
          | .ok (entry, rest1) =>
              simp only [hd] at h
              injection h with h
              injection h with h
              injection h with h
              injection h with h1' h
              injection h with h2' h
              injection h with h3' h4'
              subst h4'
              exact decodeLiteral_consumes _ _ _ _ _ hd
      | .ok .literalNeverIndexed =>
          simp only [hr] at h
          match hd : decodeLiteral st.table (ty :: tl) false with
          | .error e => simp only [hd] at h; exact absurd h (by simp)
          | .ok (entry, rest1) =>
              simp only [hd] at h
              injection h with h
              injection h with h
              injection h with h
              injection h with h1' h
              injection h with h2' h
              injection h with h3' h4'
              subst h4'
              exact decodeLiteral_consumes _ _ _ _ _ hd
      | .ok .sizeUpdate =>
          simp only [hr] at h
          rcases Bool.eq_false_or_eq_true cr with hcr | hcr
          case inr => subst hcr; simp at h
          case inl =>
            subst hcr
            rw [if_neg (by simp)] at h
            match hInt : decodeInt (ty :: tl) 5 with
            | .error e => simp only [hInt] at h; exact absurd h (by simp)
            | .ok (newSize, rest1) =>
                simp only [hInt] at h
                have hlt := decodeInt_consumes _ _ _ _ hInt
                by_cases hgt : newSize > st.lastMaxUpdate
                · rw [if_pos hgt] at h
                  exact absurd h (by simp)
                · rw [if_neg hgt] at h
                  match hs : st.table.setMaxSize newSize with
                  | none => simp only [hs] at h; exact absurd h (by simp)
                  | some t2 =>
                      simp only [hs] at h
                      injection h with h
                      injection h with h
                      injection h with h
                      injection h with h1' h
                      injection h with h2' h
                      injection h with h3' h4'
                      subst h4'
                      exact hlt

theorem decodeLoopF_eq (fuel : Nat) (fuel' : Nat) (st : LoopSt) (cr : Bool)
    (buf : List Nat) (h : buf.length < fuel) (h' : buf.length < fuel') :
    decodeLoopF fuel st cr buf = decodeLoopF fuel' st cr buf := by
  induction fuel generalizing fuel' st cr buf with
  | zero => omega
  | succ fuel ih =>
      cases fuel' with
      | zero => omega
      | succ f' =>
          simp only [decodeLoopF]
          match hone : decodeOne st cr buf with
          | none => simp only [hone]
          | some (.error e) => simp only [hone]
          | some (.ok none) => simp only [hone]
          | some (.ok (some (st2, cr2, eOpt, rest))) =>
              have hlt := decodeOne_consumes _ _ _ _ _ _ _ hone
              simp only [hone]
              rw [ih f' st2 cr2 rest (by omega) (by omega)]

theorem decodeLoop_reach_error {a b : LoopSt × Bool × List Nat} (e : DecErr)
    (hr : DecReach a b) :
    decodeLoop b.1 b.2.1 b.2.2 = some (.error e) →
    decodeLoop a.1 a.2.1 a.2.2 = some (.error e) := by
  induction hr with
  | refl c => exact id
  | @step st cr buf st2 cr2 eOpt rest c hone htail ih =>
      intro hb
      have ih2 : decodeLoop st2 cr2 rest = some (.error e) := ih hb
      show decodeLoop st cr buf = some (.error e)
      have hlt := decodeOne_consumes _ _ _ _ _ _ _ hone
      unfold decodeLoop
      simp only [decodeLoopF, hone]
      rw [decodeLoopF_eq buf.length (rest.length + 1) st2 cr2 rest
        (by omega) (by omega)]
      unfold decodeLoop at ih2
      rw [ih2]

/-- **C5.**  `Decoder::decode` and dynamic-table size updates.  A
configuration of the decode loop whose `can_resize` flag is `false` —
which is the case exactly when some other representation (indexed or any
literal form) was processed earlier in the block, since every such arm
clears the flag and nothing re-sets it — rejects a size-update byte with
`InvalidMaxDynamicSize`, and the whole `decode` call fails with that
error.  With `can_resize` still `true` (no other representation seen
yet), a size update whose value exceeds `last_max_update` likewise fails
the whole call with `InvalidMaxDynamicSize`; otherwise the update is
accepted: the iteration consumes it, resizes the table, emits no header
and leaves `can_resize` unchanged. -/
theorem claim_C5 (d : DecoderM) (buf : List Nat) (st' : LoopSt) (b : Nat)
    (rest : List Nat) (hload : loadRep b = .ok .sizeUpdate) :
    (DecReach ({ lastMaxUpdate := d.effLastMax, table := d.table }, true, buf)
        (st', false, b :: rest) →
      decodeD d buf = some (.error .invalidMaxDynamicSize)) ∧
    (∀ (v : Nat) (rest2 : List Nat),
      DecReach ({ lastMaxUpdate := d.effLastMax, table := d.table }, true, buf)
        (st', true, b :: rest) →
      decodeInt (b :: rest) 5 = .ok (v, rest2) →
      (v > st'.lastMaxUpdate →
        decodeD d buf = some (.error .invalidMaxDynamicSize)) ∧
      (∀ t2 : TableM, v ≤ st'.lastMaxUpdate →
        st'.table.setMaxSize v = some t2 →
        decodeOne st' true (b :: rest) =
          some (.ok (some ({ lastMaxUpdate := st'.lastMaxUpdate, table := t2 },
            true, none, rest2))))) := by
  constructor
  · intro hreach
    have hone : decodeOne st' false (b :: rest) =
        some (.error .invalidMaxDynamicSize) := by
      simp [decodeOne, hload]
    have hb : decodeLoop st' false (b :: rest) =
        some (.error .invalidMaxDynamicSize) := by
      unfold decodeLoop
      simp only [decodeLoopF, hone]
    have hall : decodeLoop { lastMaxUpdate := d.effLastMax, table := d.table }
        true buf = some (.error .invalidMaxDynamicSize) :=
      decodeLoop_reach_error .invalidMaxDynamicSize hreach hb
    simp only [decodeD, hall]
  · intro v rest2 hreach hint
    constructor
    · intro hgt
      have hone : decodeOne st' true (b :: rest) =
          some (.error .invalidMaxDynamicSize) := by
        simp [decodeOne, hload, hint, hgt]
      have hb : decodeLoop st' true (b :: rest) =
          some (.error .invalidMaxDynamicSize) := by
        unfold decodeLoop
        simp only [decodeLoopF, hone]
      have hall : decodeLoop
          { lastMaxUpdate := d.effLastMax, table := d.table } true buf =
          some (.error .invalidMaxDynamicSize) :=
        decodeLoop_reach_error .invalidMaxDynamicSize hreach hb
      simp only [decodeD, hall]
    · intro t2 hle hset
      simp [decodeOne, hload, hint, hset, Nat.not_lt.mpr hle]

/-- Concrete run of the C5 property: on the block `82 20` (Indexed
entry 2, then a size update) the whole decode fails with
`InvalidMaxDynamicSize`; on the block `20` alone (size update to 0,
first thing in the block, below the acknowledged maximum 4096) the
update is accepted and the table resized. -/
theorem claim_C5_witness :
    decodeD (decoderNew 4096) [0x82, 0x20] =
        some (.error .invalidMaxDynamicSize) ∧
    decodeOne c5St true [0x20] =
      some (.ok (some ({ c5St with table := { c5Table with maxSize := 0 } },
        true, none, []))) := by
  have hstep : decodeOne c5St true [0x82, 0x20] =
      some (.ok (some (c5St, false, some (getStatic 2), [0x20]))) := by
    rfl
  refine ⟨?_, ?_⟩
  · exact (claim_C5 (decoderNew 4096) [0x82, 0x20] c5St
      0x20 [] (by decide)).1
      (DecReach.step hstep (DecReach.refl _))
  · exact ((claim_C5 (decoderNew 4096) [0x20] c5St
      0x20 [] (by decide)).2 0 [] (DecReach.refl _) (by decide)).2
      { entries := [], size := 0, maxSize := 0 } (by decide) (by decide)

theorem rdBe_u16be (n : Nat) (h : n < 65536) : rdBe (u16be n) = n := by
  simp only [rdBe, u16be, List.foldl]
  omega

theorem rdBe_u24be (n : Nat) (h : n < 16777216) : rdBe (u24be n) = n := by
  simp only [rdBe, u24be, List.foldl]
  omega

theorem rdBe_u32be (n : Nat) (h : n < 4294967296) : rdBe (u32be n) = n := by
  simp only [rdBe, u32be, List.foldl]
  omega

theorem parseStr_encStr (l : List Nat) (h : l.length < 4294967296)
    (rest : List Nat) : parseStr (encStr l ++ rest) = some (l, rest) := by
  have h4 : encStr l ++ rest =
      (l.length / 16777216 % 256) :: (l.length / 65536 % 256) ::
        (l.length / 256 % 256) :: (l.length % 256) :: (l ++ rest) := by
    simp [encStr, u32be]
  rw [h4]
  simp only [parseStr]
  rw [show rdBe [l.length / 16777216 % 256, l.length / 65536 % 256,
      l.length / 256 % 256, l.length % 256] = l.length from by
    have := rdBe_u32be l.length h
    simpa [u32be] using this]
  rw [if_pos (by simp)]
  rw [List.take_left, List.drop_left]

theorem parseOptStr_encOptStr (o : Option (List Nat))
    (h : ∀ l, o = some l → l.length < 4294967296) (rest : List Nat) :
    parseOptStr (encOptStr o ++ rest) = some (o, rest) := by
  match o with
  | none => rfl
  | some l =>
      show parseOptStr (1 :: (encStr l ++ rest)) = some (some l, rest)
      simp only [parseOptStr]
      rw [parseStr_encStr l (h l rfl) rest]

theorem parseOptNat_encOptNat (o : Option Nat)
    (h : ∀ n, o = some n → n < 4294967296) (rest : List Nat) :
    parseOptNat (encOptNat o ++ rest) = some (o, rest) := by
  match o with
  | none => rfl
  | some n =>
      show parseOptNat (1 :: (u32be n ++ rest)) = some (some n, rest)
      simp only [u32be, List.cons_append, List.nil_append, parseOptNat]
      rw [show rdBe [n / 16777216 % 256, n / 65536 % 256, n / 256 % 256,
          n % 256] = n from by
        have := rdBe_u32be n (h n rfl)
        simpa [u32be] using this]

theorem parseFieldsLoop_encFields (l : List HField)
    (h : l.all (fun f => strOk f.name && strOk f.value) = true)
    (rest : List Nat) :
    parseFieldsLoop l.length
      (l.foldr (fun f acc => encStr f.name ++ encStr f.value ++ acc) [] ++
        rest) = some (l, rest) := by
  induction l with
  | nil => rfl
  | cons f fs ih =>
      simp only [List.all_cons, Bool.and_eq_true] at h
      obtain ⟨⟨hn, hv⟩, hfs⟩ := h
      have ih2 := ih hfs
      simp only [List.append_assoc] at ih2
      simp only [List.length_cons, List.foldr_cons, parseFieldsLoop,
        List.append_assoc,
        parseStr_encStr f.name (by simpa [strOk] using hn),
        parseStr_encStr f.value (by simpa [strOk] using hv),
        ih2]

theorem parseFields_encFields (l : List HField)
    (hc : l.length < 4294967296)
    (h : l.all (fun f => strOk f.name && strOk f.value) = true)
    (rest : List Nat) :
    parseFields (encFields l ++ rest) = some (l, rest) := by
  have h4 : encFields l ++ rest =
      (l.length / 16777216 % 256) :: (l.length / 65536 % 256) ::
        (l.length / 256 % 256) :: (l.length % 256) ::
        (l.foldr (fun f acc => encStr f.name ++ encStr f.value ++ acc) [] ++
          rest) := by
    simp [encFields, u32be]
  rw [h4]
  simp only [parseFields]
  rw [show rdBe [l.length / 16777216 % 256, l.length / 65536 % 256,
      l.length / 256 % 256, l.length % 256] = l.length from by
    have := rdBe_u32be l.length hc
    simpa [u32be] using this]
  exact parseFieldsLoop_encFields l h rest

theorem blockParse_blockBytes (b : HeaderBlockM) (h : blockOk b = true)
    (rest : List Nat) :
    blockParse (blockBytes b ++ rest) = some (b, rest) := by
  obtain ⟨fields, over, m, s, a, p, st⟩ := b
  simp only [blockOk, Bool.and_eq_true, Bool.not_eq_true'] at h
  obtain ⟨⟨⟨⟨⟨⟨⟨hover, hm⟩, hs⟩, ha⟩, hp⟩, hst⟩, hc⟩, hf⟩ := h
  subst hover
  have hm' : ∀ l, m = some l → l.length < 4294967296 := by
    intro l hl; subst hl; simpa [strOk] using hm
  have hs' : ∀ l, s = some l → l.length < 4294967296 := by
    intro l hl; subst hl; simpa [strOk] using hs
  have ha' : ∀ l, a = some l → l.length < 4294967296 := by
    intro l hl; subst hl; simpa [strOk] using ha
  have hp' : ∀ l, p = some l → l.length < 4294967296 := by
    intro l hl; subst hl; simpa [strOk] using hp
  have hst' : ∀ n, st = some n → n < 4294967296 := by
    intro n hn; subst hn; simpa using hst
  simp only [blockBytes, blockParse, List.append_assoc,
    parseOptStr_encOptStr m hm', parseOptStr_encOptStr s hs',
    parseOptStr_encOptStr a ha', parseOptStr_encOptStr p hp',
    parseOptNat_encOptNat st hst',
    parseFields_encFields fields (by simpa using hc) hf]

theorem headParse_headEncode (len kind flag sid : Nat)
    (hl : len < 16777216) (hs : sid < 2147483648) (rest : List Nat) :
    headParse (headEncode len kind flag sid ++ rest) =
      some (⟨len, kind, flag, sid⟩, rest) := by
  have h9 : headEncode len kind flag sid ++ rest =
      (len / 65536 % 256) :: (len / 256 % 256) :: (len % 256) :: kind ::
        flag :: (sid / 16777216 % 256) :: (sid / 65536 % 256) ::
        (sid / 256 % 256) :: (sid % 256) :: rest := by
    simp [headEncode, u24be, u32be]
  rw [h9]
  simp only [headParse]
  rw [show rdBe [len / 65536 % 256, len / 256 % 256, len % 256] = len from by
    have := rdBe_u24be len hl
    simpa [u24be] using this]
  rw [show rdBe [sid / 16777216 % 256, sid / 65536 % 256, sid / 256 % 256,
      sid % 256] % 2147483648 = sid from by
    have h1 : rdBe [sid / 16777216 % 256, sid / 65536 % 256, sid / 256 % 256,
        sid % 256] = sid := by
      have := rdBe_u32be sid (by omega)
      simpa [u32be] using this
    rw [h1, Nat.mod_eq_of_lt hs]]

theorem decode_dataEncode (maxFrameSize : Nat) (d : DataF)
    (hok : frameOk maxFrameSize (.data d) = true) :
    decodeFrame (dataEncode d) = some (.data d) := by
  obtain ⟨sid, data, flags, padLen⟩ := d
  simp only [frameOk, Bool.and_eq_true, decide_eq_true_eq, bne_iff_ne,
    ne_eq, beq_iff_eq, Option.isNone_iff_eq_none] at hok
  obtain ⟨⟨⟨⟨⟨⟨hsid0, hsid⟩, hmask⟩, h8⟩, hpad⟩, hmax⟩, hlen⟩ := hok
  subst hpad
  simp only [decodeFrame, dataEncode,
    headParse_headEncode data.length 0 flags sid hlen hsid data]
  rw [if_neg (by simp)]
  simp only [dataLoad, hmask, h8]
  rw [if_neg hsid0, if_neg (by omega)]
  rfl

theorem decode_pingEncode (maxFrameSize : Nat) (p : PingF)
    (hok : frameOk maxFrameSize (.ping p) = true) :
    decodeFrame (pingEncode p) = some (.ping p) := by
  obtain ⟨ack, payload⟩ := p
  simp only [frameOk, beq_iff_eq] at hok
  simp only [decodeFrame, pingEncode,
    headParse_headEncode payload.length 6 (if ack then 1 else 0) 0
      (by omega) (by omega) payload]
  rw [if_neg (by simp)]
  simp only [pingLoad, hok]
  rw [if_neg (by simp)]
  rw [if_neg (by simp)]
  cases ack with
  | false => simp
  | true => simp

theorem decode_resetEncode (maxFrameSize : Nat) (r : ResetF)
    (hok : frameOk maxFrameSize (.reset r) = true) :
    decodeFrame (resetEncode r) = some (.reset r) := by
  obtain ⟨sid, code⟩ := r
  simp only [frameOk, Bool.and_eq_true, decide_eq_true_eq] at hok
  obtain ⟨hsid, hcode⟩ := hok
  have h4 : u32be code = [code / 16777216 % 256, code / 65536 % 256,
      code / 256 % 256, code % 256] := rfl
  simp only [decodeFrame, resetEncode,
    headParse_headEncode 4 3 0 sid (by omega) hsid (u32be code)]
  rw [if_neg (by simp [u32be])]
  simp only [resetLoad, h4]
  rw [show rdBe [code / 16777216 % 256, code / 65536 % 256,
      code / 256 % 256, code % 256] = code from by
    have := rdBe_u32be code hcode
    simpa [u32be] using this]
  rfl

theorem decode_windowUpdateEncode (maxFrameSize : Nat) (w : WindowUpdateF)
    (hok : frameOk maxFrameSize (.windowUpdate w) = true) :
    decodeFrame (windowUpdateEncode w) = some (.windowUpdate w) := by
  obtain ⟨sid, inc⟩ := w
  simp only [frameOk, Bool.and_eq_true, decide_eq_true_eq] at hok
  obtain ⟨hsid, hinc⟩ := hok
  have h4 : u32be inc = [inc / 16777216 % 256, inc / 65536 % 256,
      inc / 256 % 256, inc % 256] := rfl
  simp only [decodeFrame, windowUpdateEncode,
    headParse_headEncode 4 8 0 sid (by omega) hsid (u32be inc)]
  rw [if_neg (by simp [u32be])]
  simp only [windowUpdateLoad, h4]
  rw [show rdBe [inc / 16777216 % 256, inc / 65536 % 256,
      inc / 256 % 256, inc % 256] % 2147483648 = inc from by
    have h1 : rdBe [inc / 16777216 % 256, inc / 65536 % 256,
        inc / 256 % 256, inc % 256] = inc := by
      have := rdBe_u32be inc (by omega)
      simpa [u32be] using this
    rw [h1, Nat.mod_eq_of_lt hinc]]
  rfl

theorem decode_goAwayEncode (maxFrameSize : Nat) (g : GoAwayF)
    (hok : frameOk maxFrameSize (.goAway g) = true) :
    decodeFrame (goAwayEncode g) = some (.goAway g) := by
  obtain ⟨last, code, debugData⟩ := g
  simp only [frameOk, Bool.and_eq_true, decide_eq_true_eq] at hok
  obtain ⟨⟨hlast, hcode⟩, hlen⟩ := hok
  have hsplit : u32be last ++ u32be code ++ debugData =
      (last / 16777216 % 256) :: (last / 65536 % 256) ::
      (last / 256 % 256) :: (last % 256) :: (code / 16777216 % 256) ::
      (code / 65536 % 256) :: (code / 256 % 256) :: (code % 256) ::
      debugData := by
    simp [u32be]
  simp only [decodeFrame, goAwayEncode, List.append_assoc,
    headParse_headEncode (8 + debugData.length) 7 0 0 (by omega) (by omega)]
  rw [if_neg (by simp [u32be]; omega)]
  simp only [goAwayLoad, u32be, List.cons_append, List.nil_append]
  rw [if_neg (by simp)]
  rw [show rdBe [last / 16777216 % 256, last / 65536 % 256,
      last / 256 % 256, last % 256] % 2147483648 = last from by
    have h1 : rdBe [last / 16777216 % 256, last / 65536 % 256,
        last / 256 % 256, last % 256] = last := by
      have := rdBe_u32be last (by omega)
      simpa [u32be] using this
    rw [h1, Nat.mod_eq_of_lt hlast]]
  rw [show rdBe [code / 16777216 % 256, code / 65536 % 256,
      code / 256 % 256, code % 256] = code from by
    have := rdBe_u32be code hcode
    simpa [u32be] using this]
  rfl

theorem settingsEntries_step (sid v : Nat) (rest : List Nat)
    (h1 : sid < 65536) (h2 : v < 4294967296) :
    settingsEntries (u16be sid ++ u32be v ++ rest) =
      Option.map (fun l => (sid, v) :: l) (settingsEntries rest) := by
  simp only [u16be, u32be, List.cons_append, List.nil_append,
    settingsEntries]
  rw [show rdBe [sid / 256 % 256, sid % 256] = sid from by
    have := rdBe_u16be sid h1
    simpa [u16be] using this]
  rw [show rdBe [v / 16777216 % 256, v / 65536 % 256, v / 256 % 256,
      v % 256] = v from by
    have := rdBe_u32be v h2
    simpa [u32be] using this]
  rw [show List.append ([] : List Nat) rest = rest from rfl]
  cases settingsEntries rest with
  | none => rfl
  | some l => rfl

theorem settingsEntries_settingsPayload (l : List (Nat × Nat))
    (h : l.all (fun e => decide (e.1 < 65536) &&
      decide (e.2 < 4294967296)) = true) :
    settingsEntries (settingsPayload l) = some l := by
  induction l with
  | nil => rfl
  | cons e es ih =>
      simp only [List.all_cons, Bool.and_eq_true, decide_eq_true_eq] at h
      obtain ⟨⟨h1, h2⟩, hes⟩ := h
      have ih2 := ih hes
      simp only [settingsPayload] at ih2
      obtain ⟨sid, v⟩ := e
      simp only [settingsPayload, List.foldr_cons]
      rw [settingsEntries_step sid v _ h1 h2, ih2]
      rfl

theorem decode_settingsEncode (maxFrameSize : Nat) (s : SettingsF)
    (hok : frameOk maxFrameSize (.settings s) = true) :
    decodeFrame (settingsEncode s) = some (.settings s) := by
  obtain ⟨ack, entries⟩ := s
  simp only [frameOk, Bool.and_eq_true, decide_eq_true_eq] at hok
  obtain ⟨hall, hlen⟩ := hok
  simp only [decodeFrame, settingsEncode,
    headParse_headEncode (settingsPayload entries).length 4
      (if ack then 1 else 0) 0 hlen (by omega)]
  rw [if_neg (by simp)]
  simp only [settingsLoad, settingsEntries_settingsPayload entries hall]
  rw [if_neg (by simp)]
  cases ack with
  | false => simp
  | true => simp

theorem decode_headersEncode (maxFrameSize : Nat) (h : MHeaders)
    (hok : frameOk maxFrameSize (.headersF h) = true) :
    decodeFrame (headersEncode h) = some (.headersF h) := by
  obtain ⟨sid, dep, block, flags⟩ := h
  simp only [frameOk, Bool.and_eq_true, decide_eq_true_eq, beq_iff_eq,
    Option.isNone_iff_eq_none] at hok
  obtain ⟨⟨⟨⟨⟨⟨⟨hsid, hfl⟩, h4⟩, h8⟩, h32⟩, hdep⟩, hblock⟩, hlen⟩ := hok
  subst hdep
  have hb := blockParse_blockBytes block hblock []
  rw [List.append_nil] at hb
  simp only [decodeFrame, headersEncode,
    headParse_headEncode (blockBytes block).length 1 flags sid hlen hsid]
  rw [if_neg (by simp)]
  simp [headersLoad, h8, h32, hb]

theorem decode_pushPromiseEncode (maxFrameSize : Nat) (p : PushPromiseC)
    (hok : frameOk maxFrameSize (.pushPromise p) = true) :
    decodeFrame (pushPromiseEncode p) = some (.pushPromise p) := by
  obtain ⟨sid, pid, block, flags⟩ := p
  simp only [frameOk, Bool.and_eq_true, decide_eq_true_eq, beq_iff_eq] at hok
  obtain ⟨⟨⟨⟨⟨⟨hsid, hpid⟩, hfl⟩, h4⟩, h8⟩, hblock⟩, hlen⟩ := hok
  have hb := blockParse_blockBytes block hblock []
  rw [List.append_nil] at hb
  simp only [decodeFrame, pushPromiseEncode, List.append_assoc,
    headParse_headEncode (4 + (blockBytes block).length) 5 flags sid
      hlen hsid]
  rw [if_neg (by simp [u32be]; omega)]
  have hr : rdBe [pid / 16777216 % 256, pid / 65536 % 256,
      pid / 256 % 256, pid % 256] % 2147483648 = pid := by
    have h1 : rdBe [pid / 16777216 % 256, pid / 65536 % 256,
        pid / 256 % 256, pid % 256] = pid := by
      have := rdBe_u32be pid (by omega)
      simpa [u32be] using this
    rw [h1, Nat.mod_eq_of_lt hpid]
  simp [pushPromiseLoad, h8, u32be, hb, hr]

/-- **C6.**  Frame round trip, amended: the write path
(`FramedWrite::buffer`) hits `unimplemented!()` on `Frame::Priority`,
so the round trip cannot hold "for every frame kind"; for every
structurally valid frame of any other kind, encoding appends bytes
whose decode yields the frame back (padding is write-only and excluded
by structural validity). -/
theorem claim_C6 (maxFrameSize : Nat) (f : FrameC)
    (hok : frameOk maxFrameSize f = true)
    (hnp : f.isPriority = false) :
    ∃ bytes, encodeFrame maxFrameSize f = .ok bytes ∧
      decodeFrame bytes = some f := by
  cases f with
  | data d =>
      have hle : d.data.length ≤ maxFrameSize := by
        simp only [frameOk, Bool.and_eq_true, decide_eq_true_eq] at hok
        exact hok.1.2
      refine ⟨dataEncode d, ?_, decode_dataEncode maxFrameSize d hok⟩
      simp [encodeFrame, Nat.not_lt.mpr hle]
  | headersF h => exact ⟨_, rfl, decode_headersEncode maxFrameSize h hok⟩
  | priority p => simp [FrameC.isPriority] at hnp
  | reset r => exact ⟨_, rfl, decode_resetEncode maxFrameSize r hok⟩
  | settings s => exact ⟨_, rfl, decode_settingsEncode maxFrameSize s hok⟩
  | pushPromise p =>
      exact ⟨_, rfl, decode_pushPromiseEncode maxFrameSize p hok⟩
  | ping p => exact ⟨_, rfl, decode_pingEncode maxFrameSize p hok⟩
  | goAway g => exact ⟨_, rfl, decode_goAwayEncode maxFrameSize g hok⟩
  | windowUpdate w =>
      exact ⟨_, rfl, decode_windowUpdateEncode maxFrameSize w hok⟩

/-- **C6 counterexample.**  A structurally valid PRIORITY frame (stream
1 depending on stream 3, weight 15): the write path panics on it
(`Frame::Priority(_) => unimplemented!()` in framed_write.rs), so
`decode(encode(f)) == f` fails for this frame kind — even though the
read side parses exactly that frame from the wire. -/
theorem claim_C6_counterexample :
    frameOk 16384 (FrameC.priority ⟨1, ⟨3, 15, false⟩⟩) = true ∧
    encodeFrame 16384 (FrameC.priority ⟨1, ⟨3, 15, false⟩⟩) =
      EncodeOut.panicked ∧
    decodeFrame (headEncode 5 2 0 1 ++ [0, 0, 0, 3, 15]) =
      some (FrameC.priority ⟨1, ⟨3, 15, false⟩⟩) := by
  decide

/-- Concrete round trip per the amended C6: a PING frame. -/
theorem claim_C6_witness :
    ∃ bytes, encodeFrame 16384
        (FrameC.ping ⟨false, [1, 2, 3, 4, 5, 6, 7, 8]⟩) = .ok bytes ∧
      decodeFrame bytes =
        some (FrameC.ping ⟨false, [1, 2, 3, 4, 5, 6, 7, 8]⟩) :=
  claim_C6 16384 (FrameC.ping ⟨false, [1, 2, 3, 4, 5, 6, 7, 8]⟩)
    (by decide) (by decide)

end Nephele
